import Mathlib

/-!
Verification development for the bingo round-lifecycle engine of the
Feta_bingo repository.

The engine is shallowly embedded from the primary implementation revision of
the socket engine (the setupSocket revision carrying the server-side tier
timer supervisor), together with the pure number-pool generator shared by all
revisions and the redis-backed game-session repository.  Mutable JS Maps are
modelled as association lists, timer and interval handles as booleans
recording whether the handle is armed, socket emissions as an explicit event
list, and external-store calls (session purges, balance credits, history
appends) as an explicit effect list.  JS numbers used for money are modelled
as rationals.
-/

namespace FetaBingo


/-! ### Association-list model of JS Map and of redis keyspaces -/

/-- Lookup of the first binding of a key, mirroring Map.get. -/
def mapFind {κ β : Type} [DecidableEq κ] (k : κ) : List (κ × β) → Option β
  | [] => none
  | p :: rest => if p.1 = k then some p.2 else mapFind k rest

/-- Map.set: replace the binding of the key, or append a fresh binding. -/
def mapSet {κ β : Type} [DecidableEq κ] (k : κ) (v : β) : List (κ × β) → List (κ × β)
  | [] => [(k, v)]
  | p :: rest => if p.1 = k then (k, v) :: rest else p :: mapSet k v rest

/-- Map.delete: remove every binding of the key. -/
def mapErase {κ β : Type} [DecidableEq κ] (k : κ) : List (κ × β) → List (κ × β)
  | [] => []
  | p :: rest => if p.1 = k then mapErase k rest else p :: mapErase k rest

/-- In-place mutation of the value stored under a key, when present. -/
def mapUpdate {κ β : Type} [DecidableEq κ] (k : κ) (f : β → β) : List (κ × β) → List (κ × β)
  | [] => []
  | p :: rest => if p.1 = k then (p.1, f p.2) :: rest else p :: mapUpdate k f rest

/-! ### Number Pool Generator (generateAllBingoNumbers, shuffleNumbers)

Embedded from the identical function appearing in every engine revision:
five letter groups of fifteen consecutive integers, each label written as
the group letter, a dash, and the integer.  The shuffle walks the array from
the back, swapping position i with a randomly chosen position j ≤ i; the
random draw is abstracted as a function giving the chosen index for each i.
-/

def letters : List String := ["B", "I", "N", "G", "O"]

def ranges : List (Nat × Nat) := [(1, 15), (16, 30), (31, 45), (46, 60), (61, 75)]

def generateAllBingoNumbers : List String :=
  (letters.zip ranges).flatMap
    (fun p => (List.range' p.2.1 (p.2.2 + 1 - p.2.1)).map (fun n => p.1 ++ "-" ++ toString n))

/-- One destructuring swap of positions i and j, as in the shuffle loop body. -/
def swapAt' (l : List String) (i j : Nat) : List String :=
  (l.set i (l.getD j "")).set j (l.getD i "")

/-- The countdown loop of shuffleNumbers: swaps at indices i, i-1, ..., 1. -/
def fyLoop (rand : Nat → Nat) : List String → Nat → List String
  | a, 0 => a
  | a, i + 1 => fyLoop rand (swapAt' a (i + 1) (rand (i + 1))) i

def shuffleNumbers (rand : Nat → Nat) (numbers : List String) : List String :=
  fyLoop rand numbers (numbers.length - 1)

/-! ### Engine state (setupSocket revision)

GameState mirrors the per-tier record of the engine; interval and timeout
handles become booleans (armed or not).  BetTimerState mirrors the tier
timer supervisor record; its status values ready, active and in-progress
are the waiting, counting-down and in-progress phases of the spec.
UserAccount carries the wallet and the three earnings accumulators touched
by finalizeGame.  SessionRec is a stored game-session row as the engine
observes it.  ServerState bundles the two process-scoped maps, the user
store and the session store.
-/

structure GameState where
  betAmount : ℚ
  calledNumbers : List String
  remainingNumbers : List String
  isCalling : Bool
  callingInterval : Bool
  isGameEnded : Bool
  pendingWinners : List (String × Nat)
  gracePeriodTimer : Bool
  gracePeriodActive : Bool
deriving DecidableEq

inductive TStatus where
  | ready
  | active
  | inProgress
deriving DecidableEq

structure BetTimerState where
  status : TStatus
  timer : Int
  playerCount : Nat
  prizePool : ℚ
  createdAt : Option Nat
deriving DecidableEq

structure UserAccount where
  wallet : ℚ
  dailyEarnings : ℚ
  weeklyEarnings : ℚ
  totalEarnings : ℚ
deriving DecidableEq

structure SessionRec where
  userId : String
  cardNumber : Nat
  betAmount : ℚ
  status : String
deriving DecidableEq

structure ServerState where
  activeGames : List (ℚ × GameState)
  betTimers : List (ℚ × BetTimerState)
  users : List (String × UserAccount)
  sessions : List SessionRec
deriving DecidableEq

/-- Socket emissions of the engine (broadcasts and unicasts). -/
inductive GEvent where
  | numberCalled (bet : ℚ) (number : String) (called : List String)
  | gameStopped (bet : ℚ) (firstWinner : Option (String × Nat)) (allWinners : List (String × Nat))
  | winnerAnnounced (bet : ℚ) (winnerId : String) (winnerCard : Nat) (totalSoFar : Nat)
  | gameEnded (bet : ℚ) (winners : List (String × Nat)) (pool : ℚ) (split : ℚ) (total : Nat)
  | sessionsUpdated
  | timerStatesUpdate
  | errMsg (msg : String)
  | gameStateMsg (bet : ℚ) (called : List String) (currentNumber : String)
deriving DecidableEq

/-- Calls the engine issues against the external stores. -/
inductive GEffect where
  | purgeSessions (bet : ℚ)
  | creditWinner (userId : String) (amount : ℚ)
  | historyAppend (winnerId : String) (card : Nat) (prize : ℚ) (players : Nat) (bet : ℚ)
deriving DecidableEq

/-! ### Engine operations -/

/-- Update the stored game for a tier in place, when present. -/
def updateGame (s : ServerState) (bet : ℚ) (f : GameState → GameState) : ServerState :=
  { s with activeGames := mapUpdate bet f s.activeGames }

/-- The per-round effect of stopGameCalling: cancel the calling interval
handle and clear isCalling. -/
def stopFlags (g : GameState) : GameState :=
  { g with callingInterval := false, isCalling := false }

/-- The per-round effect of endGameCompletely: set the terminal flag and
clear the grace flag and grace timer handle. -/
def endFlags (g : GameState) : GameState :=
  { g with isGameEnded := true, gracePeriodActive := false, gracePeriodTimer := false }

/-- stopGameCalling: cancel the calling interval and clear isCalling. -/
def stopGameCalling (s : ServerState) (bet : ℚ) : ServerState :=
  updateGame s bet stopFlags

/-- resetBetTimer: put the tier timer back to ready with a 5 second delay. -/
def resetBetTimer (s : ServerState) (bet : ℚ) : ServerState :=
  { s with betTimers :=
      (mapUpdate bet
        (fun t => { t with status := TStatus.ready, timer := 5, createdAt := none })
        s.betTimers) }

/-- endGameCompletely: mark the round ended, clear the grace flags and grace
timer, reset the tier timer and broadcast the timer states. -/
def endGameCompletely (s : ServerState) (bet : ℚ) : ServerState × List GEvent :=
  match mapFind bet s.activeGames with
  | none => (s, [])
  | some _ =>
    (resetBetTimer (updateGame s bet endFlags) bet, [GEvent.timerStatesUpdate])

/-- GameSession.deleteMany for one tier. -/
def purgeTierSessions (s : ServerState) (bet : ℚ) : ServerState :=
  { s with sessions := s.sessions.filter (fun r => decide (r.betAmount ≠ bet)) }

/-- handleNoWinnerGame: end the round, purge the sessions of the tier,
broadcast a zero-winner game end and drop the round from the registry. -/
def handleNoWinnerGame (s : ServerState) (bet : ℚ) : ServerState × List GEvent × List GEffect :=
  match mapFind bet s.activeGames with
  | none => (s, [], [])
  | some _ =>
    let r1 := endGameCompletely s bet
    let s2 := purgeTierSessions r1.1 bet
    let s3 := { s2 with activeGames := mapErase bet s2.activeGames }
    (s3, r1.2 ++ [GEvent.gameEnded bet [] 0 0 0, GEvent.sessionsUpdated],
      [GEffect.purgeSessions bet])

/-- One firing of the calling interval: stop when the round is missing,
exhausted or ended (entering the no-winner path when exhausted with no
pending winner); otherwise pop the front of remainingNumbers, append it to
calledNumbers and broadcast it, taking the no-winner path if this draw
exhausted the pool with no pending winner. -/
def callingTick (s : ServerState) (bet : ℚ) : ServerState × List GEvent × List GEffect :=
  match mapFind bet s.activeGames with
  | none => (stopGameCalling s bet, [], [])
  | some g =>
    if g.remainingNumbers.isEmpty || g.isGameEnded then
      let s1 := stopGameCalling s bet
      if g.remainingNumbers.isEmpty && g.pendingWinners.isEmpty then
        handleNoWinnerGame s1 bet
      else (s1, [], [])
    else
      match g.remainingNumbers with
      | [] => (s, [], [])
      | n :: rest =>
        let g1 := { g with calledNumbers := g.calledNumbers ++ [n], remainingNumbers := rest }
        let s1 := { s with activeGames := mapSet bet g1 s.activeGames }
        let ev := GEvent.numberCalled bet n g1.calledNumbers
        if rest.isEmpty then
          let s2 := stopGameCalling s1 bet
          if g1.pendingWinners.isEmpty then
            let r3 := handleNoWinnerGame s2 bet
            (r3.1, ev :: r3.2.1, r3.2.2)
          else (s2, [ev], [])
        else (s1, [ev], [])

/-- handleWinnerSubmission: drop unknown tiers and duplicate claims; on a
claim while calling, stop the calling, set the grace flag, broadcast the
stop and arm the grace timer if it is not armed; in every accepted case
append the claim and broadcast the winner with the running count.  The
prizePool argument is only captured for the armed finalize, hence unused
here. -/
def handleWinnerSubmission (s : ServerState) (bet : ℚ) (winnerId : String) (winnerCard : Nat)
    (_prizePool : ℚ) : ServerState × List GEvent :=
  match mapFind bet s.activeGames with
  | none => (s, [])
  | some g =>
    if (winnerId, winnerCard) ∈ g.pendingWinners then (s, [])
    else
      let stopPart : ServerState × List GEvent :=
        if g.isCalling then
          let s1 := stopGameCalling s bet
          let s2 := updateGame s1 bet (fun g2 => { g2 with gracePeriodActive := true })
          let s3 :=
            if g.gracePeriodTimer then s2
            else updateGame s2 bet (fun g2 => { g2 with gracePeriodTimer := true })
          (s3, [GEvent.gameStopped bet (some (winnerId, winnerCard)) g.pendingWinners])
        else (s, [])
      let sB := updateGame stopPart.1 bet
        (fun g2 => { g2 with pendingWinners := g2.pendingWinners ++ [(winnerId, winnerCard)] })
      (sB, stopPart.2 ++
        [GEvent.winnerAnnounced bet winnerId winnerCard (g.pendingWinners.length + 1)])

/-- The end-game socket handler: reject when no round exists or the round
already ended, else delegate to handleWinnerSubmission. -/
def endGameHandler (s : ServerState) (bet : ℚ) (winnerId : String) (winnerCard : Nat)
    (prizePool : ℚ) : ServerState × List GEvent :=
  match mapFind bet s.activeGames with
  | none => (s, [GEvent.errMsg ("No active game found")])
  | some g =>
    if g.isGameEnded then (s, [GEvent.errMsg ("Game has already ended")])
    else handleWinnerSubmission s bet winnerId winnerCard prizePool

/-- The freshly initialized per-tier record installed by startGameCalling:
empty calledNumbers, a full newly shuffled pool, calling armed. -/
def freshRound (rand : Nat → Nat) (bet : ℚ) : GameState :=
  { betAmount := bet
    calledNumbers := []
    remainingNumbers := shuffleNumbers rand generateAllBingoNumbers
    isCalling := true
    callingInterval := true
    isGameEnded := false
    pendingWinners := []
    gracePeriodTimer := false
    gracePeriodActive := false }

/-- startGameCalling: flip the tier timer to in-progress, broadcast the
timer states, and install a fresh round with a newly shuffled pool and an
armed calling interval (stale handles of a replaced round die with it). -/
def startGameCalling (rand : Nat → Nat) (s : ServerState) (bet : ℚ) :
    ServerState × List GEvent :=
  let s1 := { s with betTimers :=
    (mapUpdate bet (fun t => { t with status := TStatus.inProgress }) s.betTimers) }
  ({ s1 with activeGames := mapSet bet (freshRound rand bet) s1.activeGames },
    [GEvent.timerStatesUpdate])

/-- The start-game socket handler: start only when no round exists or the
existing round has ended, then unicast the current game state. -/
def startGameHandler (rand : Nat → Nat) (s : ServerState) (bet : ℚ) :
    ServerState × List GEvent :=
  let started : ServerState × List GEvent :=
    match mapFind bet s.activeGames with
    | none => startGameCalling rand s bet
    | some g => if g.isGameEnded then startGameCalling rand s bet else (s, [])
  match mapFind bet started.1.activeGames with
  | none => started
  | some g2 =>
    (started.1, started.2 ++
      [GEvent.gameStateMsg bet g2.calledNumbers ((g2.calledNumbers.getLast?).getD "")])

/-- Credit each winner in order: read the account, add the prize to the
wallet and the three earnings accumulators when the account exists, and
append one history record per winner. -/
def creditWinners (s : ServerState) (winners : List (String × Nat)) (p : ℚ)
    (players : Nat) (bet : ℚ) : ServerState × List GEffect :=
  match winners with
  | [] => (s, [])
  | w :: rest =>
    let step : ServerState × List GEffect :=
      match mapFind w.1 s.users with
      | none => (s, [])
      | some a =>
        ({ s with users := (mapSet w.1
            { wallet := a.wallet + p
              dailyEarnings := a.dailyEarnings + p
              weeklyEarnings := a.weeklyEarnings + p
              totalEarnings := a.totalEarnings + p } s.users) },
          [GEffect.creditWinner w.1 p])
    let r := creditWinners step.1 rest p players bet
    (r.1, step.2 ++ [GEffect.historyAppend w.1 w.2 p players bet] ++ r.2)

/-- finalizeGame: no-op when the registry has no round for the tier; else
end the round completely, count and purge the sessions of the tier, split
the pool equally among the pending winners (crediting accounts and writing
history), broadcast the outcome (a zero pool and split when there is no
winner), drop the round from the registry and broadcast the empty session
list. -/
def finalizeGame (s : ServerState) (bet : ℚ) (prizePool : ℚ) :
    ServerState × List GEvent × List GEffect :=
  match mapFind bet s.activeGames with
  | none => (s, [], [])
  | some g =>
    let r1 := endGameCompletely s bet
    let winners := g.pendingWinners
    let numberOfPlayers := (r1.1.sessions.filter (fun r => decide (r.betAmount = bet))).length
    let s2 := purgeTierSessions r1.1 bet
    if winners.isEmpty then
      let s3 := { s2 with activeGames := mapErase bet s2.activeGames }
      (s3, r1.2 ++ [GEvent.gameEnded bet [] 0 0 0, GEvent.sessionsUpdated],
        [GEffect.purgeSessions bet])
    else
      let p := prizePool / (winners.length : ℚ)
      let rc := creditWinners s2 winners p numberOfPlayers bet
      let s4 := { rc.1 with activeGames := mapErase bet rc.1.activeGames }
      (s4, r1.2 ++
          [GEvent.gameEnded bet winners prizePool p winners.length, GEvent.sessionsUpdated],
        GEffect.purgeSessions bet :: rc.2)

/-- One step of a single tier timer inside the global 1 Hz tick; the flag
reports whether the entry counts as changed for the broadcast decision. -/
def timerTickOne (gameLive : Bool) (now : Nat) (t : BetTimerState) : BetTimerState × Bool :=
  match t.status with
  | TStatus.ready =>
    let t1 := { t with timer := t.timer - 1 }
    if t1.timer ≤ 0 then
      ({ t1 with status := TStatus.active, timer := 45, createdAt := some now }, true)
    else (t1, true)
  | TStatus.active =>
    let t1 := { t with timer := t.timer - 1 }
    if t1.timer ≤ 0 then
      if gameLive then ({ t1 with status := TStatus.inProgress }, true)
      else ({ t1 with status := TStatus.ready, timer := 5, createdAt := none }, true)
    else (t1, true)
  | TStatus.inProgress => (t, false)

/-- Whether a non-ended round exists for the tier, as the active branch of
the global timer checks it. -/
def gameLiveFor (s : ServerState) (bet : ℚ) : Bool :=
  match mapFind bet s.activeGames with
  | none => false
  | some g => !g.isGameEnded

/-- One firing of the global 1 Hz supervisor interval over every tier
timer; the boolean is the hasChanges flag deciding the broadcast. -/
def globalTimerTick (s : ServerState) (now : Nat) : ServerState × Bool :=
  ({ s with betTimers :=
      s.betTimers.map (fun p => (p.1, (timerTickOne (gameLiveFor s p.1) now p.2).1)) },
    s.betTimers.any (fun p => (timerTickOne (gameLiveFor s p.1) now p.2).2))

/-! ### Observations used by the claims -/

def callingOf (s : ServerState) (bet : ℚ) : Bool :=
  ((mapFind bet s.activeGames).map (fun g => g.isCalling)).getD false

def graceArmed (s : ServerState) (bet : ℚ) : Bool :=
  ((mapFind bet s.activeGames).map (fun g => g.gracePeriodTimer)).getD false

def stopCount (evs : List GEvent) : Nat :=
  evs.countP (fun e => match e with | GEvent.gameStopped _ _ _ => true | _ => false)

def announceCount (evs : List GEvent) : Nat :=
  evs.countP (fun e => match e with | GEvent.winnerAnnounced _ _ _ _ => true | _ => false)

def endedBroadcastCount (evs : List GEvent) : Nat :=
  evs.countP (fun e => match e with | GEvent.gameEnded _ _ _ _ _ => true | _ => false)

def creditEffectCount (effs : List GEffect) : Nat :=
  effs.countP (fun e => match e with | GEffect.creditWinner _ _ => true | _ => false)

def purgeEffectCount (effs : List GEffect) : Nat :=
  effs.countP (fun e => match e with | GEffect.purgeSessions _ => true | _ => false)

/-- A trace of end-game submissions against one tier, accumulating the
events and the number of times the grace timer goes from unarmed to armed. -/
def runClaims (bet : ℚ) (s : ServerState) :
    List (String × Nat × ℚ) → ServerState × List GEvent × Nat
  | [] => (s, [], 0)
  | c :: rest =>
    let r1 := endGameHandler s bet c.1 c.2.1 c.2.2
    let flip : Nat := if graceArmed r1.1 bet && !graceArmed s bet then 1 else 0
    let r2 := runClaims bet r1.1 rest
    (r2.1, r1.2 ++ r2.2.1, flip + r2.2.2)

/-! ### Sample states used by witnesses -/

def acct1 : UserAccount :=
  { wallet := 50, dailyEarnings := 1, weeklyEarnings := 2, totalEarnings := 3 }

def tmr1 : BetTimerState :=
  { status := TStatus.inProgress, timer := 0, playerCount := 3, prizePool := 24,
    createdAt := none }

def sess1 : SessionRec :=
  { userId := "u1", cardNumber := 7, betAmount := 10, status := "playing" }

/-- A round in its grace period: calling stopped, not ended, one claim in. -/
def gGrace : GameState :=
  { betAmount := 10, calledNumbers := ["B-1", "I-16"], remainingNumbers := ["N-31"],
    isCalling := false, callingInterval := false, isGameEnded := false,
    pendingWinners := [("u1", 7)], gracePeriodTimer := true, gracePeriodActive := true }

def sGrace : ServerState :=
  { activeGames := [(10, gGrace)], betTimers := [(10, tmr1)], users := [("u1", acct1)],
    sessions := [sess1] }

/-- A round already ended but still present in the registry (reachable via
the stop-game command, which ends the round without deleting it). -/
def gEnded2 : GameState :=
  { betAmount := 10, calledNumbers := ["B-1"], remainingNumbers := ["I-16"],
    isCalling := false, callingInterval := false, isGameEnded := true,
    pendingWinners := [("u1", 7)], gracePeriodTimer := false, gracePeriodActive := false }

def sEnded2 : ServerState :=
  { activeGames := [(10, gEnded2)], betTimers := [(10, tmr1)], users := [("u1", acct1)],
    sessions := [sess1] }

/-- A live round holding its last number with no pending winner. -/
def gLast : GameState :=
  { betAmount := 10, calledNumbers := ["B-1"], remainingNumbers := ["N-31"],
    isCalling := true, callingInterval := true, isGameEnded := false,
    pendingWinners := [], gracePeriodTimer := false, gracePeriodActive := false }

def sLast : ServerState :=
  { activeGames := [(10, gLast)], betTimers := [(10, tmr1)], users := [("u1", acct1)],
    sessions := [sess1] }

/-! ### Claim C5 -/

/-- Adding one credited amount to the wallet and the three earnings
accumulators of an account, as finalizeGame does per winner. -/
def addEarnings (a : UserAccount) (q : ℚ) : UserAccount :=
  { wallet := a.wallet + q
    dailyEarnings := a.dailyEarnings + q
    weeklyEarnings := a.weeklyEarnings + q
    totalEarnings := a.totalEarnings + q }

/-- A round in its grace period holding three collected winners. -/
def gThree : GameState :=
  { betAmount := 10, calledNumbers := ["B-1"], remainingNumbers := ["I-16"],
    isCalling := false, callingInterval := false, isGameEnded := false,
    pendingWinners := [("u1", 1), ("u2", 2), ("u3", 3)], gracePeriodTimer := true,
    gracePeriodActive := true }

def sThree : ServerState :=
  { activeGames := [(10, gThree)], betTimers := [(10, tmr1)], users := [("u1", acct1)],
    sessions := [sess1] }

/-- A tier timer one second from the end of its waiting delay, with zero
eligible participants. -/
def tmrReadyZero : BetTimerState :=
  { status := TStatus.ready, timer := 1, playerCount := 0, prizePool := 0, createdAt := none }

def sNoPlayers : ServerState :=
  { activeGames := [], betTimers := [(10, tmrReadyZero)], users := [], sessions := [] }

/-! ### Claim C8 -/

/-- The number-pool invariant of one round: the called numbers followed by
the remaining numbers are a permutation of the full 75-label pool. -/
def RoundInv (g : GameState) : Prop :=
  (g.calledNumbers ++ g.remainingNumbers).Perm generateAllBingoNumbers

/-- Every registered round satisfies the number-pool invariant. -/
def AllInv (m : List (ℚ × GameState)) : Prop :=
  ∀ b g, mapFind b m = some g → RoundInv g

/-- A server state with no registered round. -/
def sEmpty : ServerState :=
  { activeGames := [], betTimers := [], users := [], sessions := [] }

/-! ### Redis-backed game-session repository (redisGameSessionRepo)

The redis keyspace splits into the per-session JSON values (an association
list keyed by session id, JSON round-tripping elided since parse after
stringify is the identity on the DTO), the sessions:all set, and the
per-bet and per-status index sets, modelled as functions from the key to
the member list (absent redis keys are the empty set). -/

inductive SessionStatus where
  | active
  | playing
  | blocked
  | completed
deriving DecidableEq

structure GameSessionDTO where
  _id : String
  userId : String
  cardNumber : Nat
  betAmount : ℚ
  status : SessionStatus
  createdAt : String
deriving DecidableEq

structure RedisState where
  store : List (String × GameSessionDTO)
  allSet : List String
  betSets : ℚ → List String
  statusSets : SessionStatus → List String

/-- redis SADD on one set: append the member unless present. -/
def saddElem (x : String) (l : List String) : List String :=
  if x ∈ l then l else l ++ [x]

/-- redis SREM on one set: drop the member. -/
def sremElem (x : String) (l : List String) : List String :=
  l.filter (fun y => decide (y ≠ x))

/-- SADD against the keyed family of sets. -/
def fAdd {κ : Type} [DecidableEq κ] (k : κ) (x : String) (f : κ → List String) :
    κ → List String :=
  fun q => if q = k then saddElem x (f k) else f q

/-- SREM against the keyed family of sets. -/
def fRem {κ : Type} [DecidableEq κ] (k : κ) (x : String) (f : κ → List String) :
    κ → List String :=
  fun q => if q = k then sremElem x (f k) else f q

def indexSession (st : RedisState) (s : GameSessionDTO) : RedisState :=
  { st with allSet := saddElem s._id st.allSet,
            betSets := fAdd s.betAmount s._id st.betSets,
            statusSets := fAdd s.status s._id st.statusSets }

def deindexSession (st : RedisState) (s : GameSessionDTO) : RedisState :=
  { st with allSet := sremElem s._id st.allSet,
            betSets := fRem s.betAmount s._id st.betSets,
            statusSets := fRem s.status s._id st.statusSets }

def readSession (st : RedisState) (id : String) : Option GameSessionDTO :=
  mapFind id st.store

def writeSession (st : RedisState) (s : GameSessionDTO) : RedisState :=
  { st with store := mapSet s._id s st.store }

def delSessionKey (st : RedisState) (id : String) : RedisState :=
  { st with store := mapErase id st.store }

structure FindFilter where
  betAmountIn : Option (List ℚ)
  betAmount : Option ℚ
  statusIn : Option (List SessionStatus)

/-- The candidate id list of GameSessionRepo.find: the bet index set for a
single bet filter, the deduplicated union of bet index sets for a list
filter, and sessions:all otherwise (an empty filter list also falls back to
sessions:all, mirroring the length truthiness test). -/
def findIds (st : RedisState) (f : FindFilter) : List String :=
  match f.betAmount with
  | some b => st.betSets b
  | none =>
    match f.betAmountIn with
    | some bs =>
      if bs.isEmpty then st.allSet else (bs.flatMap (fun b => st.betSets b)).dedup
    | none => st.allSet

/-- The in-memory status filter of GameSessionRepo.find (an empty status
list keeps everything, mirroring the length truthiness test). -/
def statusFilter (sts? : Option (List SessionStatus)) (sessions : List GameSessionDTO) :
    List GameSessionDTO :=
  match sts? with
  | some sts =>
    if sts.isEmpty then sessions
    else sessions.filter (fun s => decide (s.status ∈ sts))
  | none => sessions

/-- GameSessionRepo.find: collect candidate ids from the matching index
set, read each stored session, filter by status in memory, and sort by
createdAt ascending. -/
def repoFind (st : RedisState) (f : FindFilter) : List GameSessionDTO :=
  (statusFilter f.statusIn ((findIds st f).filterMap (readSession st))).mergeSort
    (fun a b => decide (a.createdAt ≤ b.createdAt))

/-- GameSessionRepo.findOne: first find result matching the card and user
constraints. -/
def repoFindOne (st : RedisState) (cardNumber : Option Nat) (bet : Option ℚ)
    (userId : Option String) (statusIn : Option (List SessionStatus)) :
    Option GameSessionDTO :=
  (repoFind st { betAmountIn := none, betAmount := bet, statusIn := statusIn }).find?
    (fun s =>
      (match cardNumber with
       | none => true
       | some c => decide (s.cardNumber = c)) &&
      (match userId with
       | none => true
       | some u => decide (s.userId = u)))

/-- The DTO built by create (status defaulting to active). -/
def mkSession (id userId : String) (card : Nat) (bet : ℚ) (sst : Option SessionStatus)
    (createdAt : String) : GameSessionDTO :=
  { _id := id, userId := userId, cardNumber := card, betAmount := bet,
    status := sst.getD SessionStatus.active, createdAt := createdAt }

/-- GameSessionRepo.create with the generated id made explicit. -/
def createOp (st : RedisState) (id userId : String) (card : Nat) (bet : ℚ)
    (sst : Option SessionStatus) (createdAt : String) : RedisState :=
  let s := mkSession id userId card bet sst createdAt
  indexSession (writeSession st s) s

/-- The shared write step of updateOne and updateMany on one target: write
the changed session and move it between status sets when the status
actually changed. -/
def applyStatusUpdate (st : RedisState) (target : GameSessionDTO)
    (upd : Option SessionStatus) : RedisState :=
  let changed : GameSessionDTO := { target with status := upd.getD target.status }
  let st1 := writeSession st changed
  match upd with
  | none => st1
  | some newSt =>
    if newSt ≠ target.status then
      { st1 with statusSets :=
          (fAdd changed.status changed._id (fRem target.status changed._id st1.statusSets)) }
    else st1

def updateOneOp (st : RedisState) (cardF : Option Nat) (betF : Option ℚ)
    (upd : Option SessionStatus) : RedisState :=
  match repoFindOne st cardF betF none none with
  | none => st
  | some target => applyStatusUpdate st target upd

def updateManyLoop (st : RedisState) (items : List GameSessionDTO)
    (upd : Option SessionStatus) : RedisState :=
  match items with
  | [] => st
  | s :: rest => updateManyLoop (applyStatusUpdate st s upd) rest upd

def updateManyOp (st : RedisState) (betF : Option ℚ) (stF : Option SessionStatus)
    (upd : Option SessionStatus) : RedisState :=
  updateManyLoop st
    (repoFind st { betAmountIn := none, betAmount := betF, statusIn := stF.map (fun x => [x]) })
    upd

def deleteByIdOp (st : RedisState) (id : String) : RedisState :=
  match readSession st id with
  | none => st
  | some s => delSessionKey (deindexSession st s) id

def deleteManyLoop (st : RedisState) (items : List GameSessionDTO) : RedisState :=
  match items with
  | [] => st
  | s :: rest => deleteManyLoop (delSessionKey (deindexSession st s) s._id) rest

def deleteManyOp (st : RedisState) (betF : Option ℚ) : RedisState :=
  deleteManyLoop st
    (repoFind st { betAmountIn := none, betAmount := betF, statusIn := none })

inductive RepoOp where
  | create (id userId : String) (card : Nat) (bet : ℚ) (sst : Option SessionStatus)
      (createdAt : String)
  | updateOne (cardF : Option Nat) (betF : Option ℚ) (upd : Option SessionStatus)
  | updateMany (betF : Option ℚ) (stF : Option SessionStatus) (upd : Option SessionStatus)
  | deleteById (id : String)
  | deleteMany (betF : Option ℚ)

def applyOp (st : RedisState) : RepoOp → RedisState
  | RepoOp.create id userId card bet sst createdAt =>
    createOp st id userId card bet sst createdAt
  | RepoOp.updateOne c b u => updateOneOp st c b u
  | RepoOp.updateMany b sf u => updateManyOp st b sf u
  | RepoOp.deleteById id => deleteByIdOp st id
  | RepoOp.deleteMany b => deleteManyOp st b

def runOps (st : RedisState) : List RepoOp → RedisState
  | [] => st
  | op :: rest => runOps (applyOp st op) rest

/-- Sequencing condition: each created id is fresh when its create runs,
matching the generated-UUID contract of create. -/
def OpsSafe (st : RedisState) : List RepoOp → Prop
  | [] => True
  | op :: rest =>
    (match op with
     | RepoOp.create id _ _ _ _ _ => mapFind id st.store = none
     | _ => True) ∧ OpsSafe (applyOp st op) rest

/-- The session-store index consistency invariant: stored sessions carry
their key as id, keys and every index set are duplicate-free, every stored
session is a member of sessions:all, of the bet set of its betAmount and of
the status set of its status, a stored session is in no other bet or status
set, and every index-set member is a stored session. -/
structure RInv (st : RedisState) : Prop where
  storeNodup : (st.store.map Prod.fst).Nodup
  allNodup : st.allSet.Nodup
  betNodup : ∀ b, (st.betSets b).Nodup
  statusNodup : ∀ c, (st.statusSets c).Nodup
  keyOk : ∀ id s, mapFind id st.store = some s → s._id = id
  inAll : ∀ id s, mapFind id st.store = some s → id ∈ st.allSet
  inBet : ∀ id s, mapFind id st.store = some s → id ∈ st.betSets s.betAmount
  inStatus : ∀ id s, mapFind id st.store = some s → id ∈ st.statusSets s.status
  betExcl : ∀ id s, mapFind id st.store = some s → ∀ b, id ∈ st.betSets b → b = s.betAmount
  statusExcl : ∀ id s, mapFind id st.store = some s → ∀ c, id ∈ st.statusSets c → c = s.status
  allStored : ∀ id, id ∈ st.allSet → mapFind id st.store ≠ none
  betStored : ∀ b id, id ∈ st.betSets b → mapFind id st.store ≠ none
  statusStored : ∀ c id, id ∈ st.statusSets c → mapFind id st.store ≠ none

/-- The empty redis keyspace. -/
def emptyRedis : RedisState :=
  { store := [], allSet := [], betSets := fun _ => [], statusSets := fun _ => [] }

/-! ### Theorems -/

theorem mapFind_mapSet_self {κ β : Type} [DecidableEq κ] (k : κ) (v : β) (m : List (κ × β)) :
    mapFind k (mapSet k v m) = some v := by
  induction m with
  | nil => simp [mapFind, mapSet]
  | cons p rest ih =>
    by_cases h : p.1 = k <;> simp [mapFind, mapSet, h, ih]

theorem mapFind_mapSet_ne {κ β : Type} [DecidableEq κ] (k k' : κ) (v : β) (m : List (κ × β))
    (h : k ≠ k') : mapFind k' (mapSet k v m) = mapFind k' m := by
  induction m with
  | nil => simp [mapFind, mapSet, h]
  | cons p rest ih =>
    by_cases hp : p.1 = k
    · simp [mapFind, mapSet, hp, h]
    · simp only [mapSet, if_neg hp, mapFind]
      by_cases hp' : p.1 = k' <;> simp [hp', ih]

theorem mapFind_mapErase_self {κ β : Type} [DecidableEq κ] (k : κ) (m : List (κ × β)) :
    mapFind k (mapErase k m) = none := by
  induction m with
  | nil => simp [mapFind, mapErase]
  | cons p rest ih =>
    by_cases h : p.1 = k <;> simp [mapFind, mapErase, h, ih]

theorem mapFind_mapErase_ne {κ β : Type} [DecidableEq κ] (k k' : κ) (m : List (κ × β))
    (h : k ≠ k') : mapFind k' (mapErase k m) = mapFind k' m := by
  induction m with
  | nil => simp [mapFind, mapErase]
  | cons p rest ih =>
    by_cases hp : p.1 = k
    · have hne : p.1 ≠ k' := by rw [hp]; exact h
      simp [mapFind, mapErase, hp, hne, h, ih]
    · by_cases hp' : p.1 = k' <;>
        simp [mapFind, mapErase, hp, hp', h, Ne.symm h, ih]

theorem mapFind_mapUpdate_self {κ β : Type} [DecidableEq κ] (k : κ) (f : β → β)
    (m : List (κ × β)) : mapFind k (mapUpdate k f m) = (mapFind k m).map f := by
  induction m with
  | nil => simp [mapFind, mapUpdate]
  | cons p rest ih =>
    by_cases h : p.1 = k <;> simp [mapFind, mapUpdate, h, ih]

theorem mapFind_mapUpdate_ne {κ β : Type} [DecidableEq κ] (k k' : κ) (f : β → β)
    (m : List (κ × β)) (h : k ≠ k') : mapFind k' (mapUpdate k f m) = mapFind k' m := by
  induction m with
  | nil => simp [mapFind, mapUpdate]
  | cons p rest ih =>
    by_cases hp : p.1 = k
    · have hne : p.1 ≠ k' := by rw [hp]; exact h
      simp [mapFind, mapUpdate, hp, hne, h]
    · by_cases hp' : p.1 = k' <;>
        simp [mapFind, mapUpdate, hp, hp', h, Ne.symm h, ih]

/-- Lookup commutes with a key-respecting value map over the entries. -/
theorem mapFind_entryMap {κ β γ : Type} [DecidableEq κ] (k : κ) (f : κ → β → γ)
    (m : List (κ × β)) :
    mapFind k (m.map (fun p => (p.1, f p.1 p.2))) = (mapFind k m).map (f k) := by
  induction m with
  | nil => simp [mapFind]
  | cons p rest ih =>
    by_cases h : p.1 = k
    · subst h; simp [mapFind, ih]
    · simp [mapFind, h, ih]

theorem swapAt'_perm (l : List String) (i j : Nat) (hi : i < l.length) (hj : j < l.length) :
    (swapAt' l i j).Perm l := by
  classical
  have egj : l.getD j "" = l[j] := List.getD_eq_getElem l "" hj
  have egi : l.getD i "" = l[i] := List.getD_eq_getElem l "" hi
  have hj' : j < (l.set i (l[j])).length := by simpa using hj
  apply List.perm_iff_count.mpr
  intro b
  unfold swapAt'
  rw [egj, egi, List.count_set _ _ _ _ hj', List.count_set _ _ _ _ hi]
  have hset : (l.set i (l[j]))[j] = l[j] := by
    rw [List.getElem_set hj']
    split <;> rfl
  rw [hset]
  have hmem : l[i] ∈ l := List.getElem_mem hi
  by_cases hbi : l[i] = b
  · have hcount : 0 < List.count b l := List.count_pos_iff.mpr (hbi ▸ hmem)
    by_cases hbj : l[j] = b <;> simp [hbi, hbj] <;> omega
  · by_cases hbj : l[j] = b <;> simp [hbi, hbj]

theorem swapAt'_length (l : List String) (i j : Nat) :
    (swapAt' l i j).length = l.length := by
  simp [swapAt']

theorem fyLoop_perm (rand : Nat → Nat) (hr : ∀ k, rand k ≤ k) :
    ∀ (i : Nat) (a : List String), i < a.length → (fyLoop rand a i).Perm a := by
  intro i
  induction i with
  | zero => intro a _; simp [fyLoop]
  | succ n ih =>
    intro a ha
    have hj : rand (n + 1) < a.length := lt_of_le_of_lt (hr (n + 1)) ha
    have hswap : (swapAt' a (n + 1) (rand (n + 1))).Perm a := swapAt'_perm a _ _ ha hj
    have hlen : n < (swapAt' a (n + 1) (rand (n + 1))).length := by
      rw [swapAt'_length]; omega
    exact (ih _ hlen).trans hswap

theorem shuffleNumbers_perm (rand : Nat → Nat) (hr : ∀ k, rand k ≤ k) (l : List String) :
    (shuffleNumbers rand l).Perm l := by
  cases l with
  | nil => simp [shuffleNumbers, fyLoop]
  | cons x xs =>
    apply fyLoop_perm rand hr
    simp

theorem generateAllBingoNumbers_length : generateAllBingoNumbers.length = 75 := by decide

set_option maxRecDepth 20000 in
theorem generateAllBingoNumbers_nodup : generateAllBingoNumbers.Nodup := by decide

/-! ### Helper lemmas about the engine operations -/

theorem creditWinners_activeGames (winners : List (String × Nat)) :
    ∀ (s : ServerState) (p : ℚ) (players : Nat) (bet : ℚ),
      (creditWinners s winners p players bet).1.activeGames = s.activeGames := by
  induction winners with
  | nil => intro s p players bet; simp [creditWinners]
  | cons w rest ih =>
    intro s p players bet
    simp only [creditWinners]
    cases h : mapFind w.1 s.users <;> simp [h, ih]

theorem creditWinners_betTimers (winners : List (String × Nat)) :
    ∀ (s : ServerState) (p : ℚ) (players : Nat) (bet : ℚ),
      (creditWinners s winners p players bet).1.betTimers = s.betTimers := by
  induction winners with
  | nil => intro s p players bet; simp [creditWinners]
  | cons w rest ih =>
    intro s p players bet
    simp only [creditWinners]
    cases h : mapFind w.1 s.users <;> simp [h, ih]

theorem creditWinners_sessions (winners : List (String × Nat)) :
    ∀ (s : ServerState) (p : ℚ) (players : Nat) (bet : ℚ),
      (creditWinners s winners p players bet).1.sessions = s.sessions := by
  induction winners with
  | nil => intro s p players bet; simp [creditWinners]
  | cons w rest ih =>
    intro s p players bet
    simp only [creditWinners]
    cases h : mapFind w.1 s.users <;> simp [h, ih]

/-- finalizeGame never leaves a round for the tier in the registry. -/
theorem finalizeGame_erased (s : ServerState) (bet pp : ℚ) :
    mapFind bet (finalizeGame s bet pp).1.activeGames = none := by
  cases hfind : mapFind bet s.activeGames with
  | none => simp [finalizeGame, hfind]
  | some g =>
    by_cases hw : g.pendingWinners.isEmpty <;>
      simp [finalizeGame, endGameCompletely, updateGame, resetBetTimer, purgeTierSessions,
        hfind, hw, creditWinners_activeGames, mapFind_mapErase_self]

/-- finalizeGame on a tier with no registered round does nothing. -/
theorem finalizeGame_noRound (s : ServerState) (bet pp : ℚ)
    (h : mapFind bet s.activeGames = none) : finalizeGame s bet pp = (s, [], []) := by
  simp [finalizeGame, h]

/-! ### Claim C1 -/

/-- C1: on a live round sitting in its grace period after the first valid
claim, a later claim from a different participant and card pair is
accepted: it is appended to pendingWinners and a winner-announced broadcast
with the running count is emitted, with no rejection, no second
round-stopped broadcast and no error. -/
theorem c1_late_claim_accepted (s : ServerState) (bet : ℚ) (g : GameState)
    (wid : String) (card : Nat) (pp : ℚ)
    (hg : mapFind bet s.activeGames = some g)
    (hE : g.isGameEnded = false)
    (hC : g.isCalling = false)
    (_hA : g.gracePeriodActive = true)
    (hD : (wid, card) ∉ g.pendingWinners) :
    endGameHandler s bet wid card pp =
      ({ s with activeGames :=
          (mapUpdate bet
            (fun g2 => { g2 with pendingWinners := g2.pendingWinners ++ [(wid, card)] })
            s.activeGames) },
        [GEvent.winnerAnnounced bet wid card (g.pendingWinners.length + 1)]) ∧
    mapFind bet (endGameHandler s bet wid card pp).1.activeGames =
      some { g with pendingWinners := g.pendingWinners ++ [(wid, card)] } := by
  have hmain : endGameHandler s bet wid card pp =
      ({ s with activeGames :=
          (mapUpdate bet
            (fun g2 => { g2 with pendingWinners := g2.pendingWinners ++ [(wid, card)] })
            s.activeGames) },
        [GEvent.winnerAnnounced bet wid card (g.pendingWinners.length + 1)]) := by
    simp [endGameHandler, handleWinnerSubmission, updateGame, hg, hE, hC, hD]
  refine ⟨hmain, ?_⟩
  rw [hmain]
  simp [mapFind_mapUpdate_self, hg]

/-- C1 witness: a second claim from user u2 with card 12 inside the grace
period of the sample round is accepted with running count 2. -/
theorem c1_late_claim_accepted_witness :
    endGameHandler sGrace 10 "u2" 12 100 =
      ({ sGrace with activeGames :=
          (mapUpdate 10
            (fun g2 => { g2 with pendingWinners := g2.pendingWinners ++ [("u2", 12)] })
            sGrace.activeGames) },
        [GEvent.winnerAnnounced 10 "u2" 12 (gGrace.pendingWinners.length + 1)]) ∧
    mapFind 10 (endGameHandler sGrace 10 "u2" 12 100).1.activeGames =
      some { gGrace with pendingWinners := gGrace.pendingWinners ++ [("u2", 12)] } :=
  c1_late_claim_accepted sGrace 10 gGrace "u2" 12 100 (by decide) (by decide) (by decide)
    (by decide) (by decide)

/-! ### Claim C2 -/

/-- C2 counterexample: a round whose ended flag is true (still registered,
as the stop-game command leaves it) is not protected by any ended guard in
finalizeGame: invoking finalize changes state, credits the winner, issues a
session purge and emits a round-ended broadcast, contradicting the claimed
guard on the ended flag. -/
theorem c2_finalize_no_ended_guard_counterexample :
    (mapFind 10 sEnded2.activeGames).map (fun g => g.isGameEnded) = some true ∧
    (finalizeGame sEnded2 10 100).1.activeGames = [] ∧
    (finalizeGame sEnded2 10 100).1.sessions = [] ∧
    endedBroadcastCount (finalizeGame sEnded2 10 100).2.1 = 1 ∧
    purgeEffectCount (finalizeGame sEnded2 10 100).2.2 = 1 ∧
    creditEffectCount (finalizeGame sEnded2 10 100).2.2 = 1 := by decide

/-- C2 amended: finalizeGame is guarded by registry presence, not by the
ended flag: it is a no-op on a tier with no registered round, and since
every completed finalize removes the round from the registry, invoking
finalize again after a finalize performs no state change, credits nobody,
purges nothing and emits nothing, so each round yields one round-ended
broadcast and one session purge. -/
theorem c2_finalize_second_invocation_noop (s : ServerState) (bet pp pp2 : ℚ) :
    finalizeGame (finalizeGame s bet pp).1 bet pp2 = ((finalizeGame s bet pp).1, [], []) :=
  finalizeGame_noRound _ _ _ (finalizeGame_erased s bet pp)

/-! ### Claim C3 -/

/-- C3: the start-game handler is idempotent on a live round: when the
registry holds a non-ended round for the tier, the server state is left
entirely unchanged (same calledNumbers, remainingNumbers and timer handle,
no replacement RoundState) and only the current game state is unicast. -/
theorem c3_start_idempotent_on_live_round (rand : Nat → Nat) (s : ServerState) (bet : ℚ)
    (g : GameState)
    (hg : mapFind bet s.activeGames = some g)
    (hE : g.isGameEnded = false) :
    startGameHandler rand s bet =
      (s, [GEvent.gameStateMsg bet g.calledNumbers ((g.calledNumbers.getLast?).getD "")]) := by
  simp [startGameHandler, hg, hE]

/-- C3 witness: starting again over the live sample round leaves the state
untouched and unicasts its called numbers. -/
theorem c3_start_idempotent_on_live_round_witness :
    startGameHandler (fun _ => 0) sGrace 10 =
      (sGrace,
        [GEvent.gameStateMsg 10 gGrace.calledNumbers
          ((gGrace.calledNumbers.getLast?).getD "")]) :=
  c3_start_idempotent_on_live_round (fun _ => 0) sGrace 10 gGrace (by decide) (by decide)

/-! ### Claim C6 -/

/-- C6: submitting a claim whose participant and card pair is already in
pendingWinners of a live round is a silent no-op: the server state is
unchanged (so the pair still has exactly its one entry) and no event at
all, in particular no winner-announced broadcast, is emitted. -/
theorem c6_duplicate_claim_silent_noop (s : ServerState) (bet : ℚ) (g : GameState)
    (wid : String) (card : Nat) (pp : ℚ)
    (hg : mapFind bet s.activeGames = some g)
    (hE : g.isGameEnded = false)
    (hD : (wid, card) ∈ g.pendingWinners) :
    endGameHandler s bet wid card pp = (s, []) := by
  simp [endGameHandler, handleWinnerSubmission, hg, hE, hD]

/-- C6 witness: resubmitting the pair u1 with card 7 on the sample round is
silently dropped. -/
theorem c6_duplicate_claim_silent_noop_witness :
    endGameHandler sGrace 10 "u1" 7 100 = (sGrace, []) :=
  c6_duplicate_claim_silent_noop sGrace 10 gGrace "u1" 7 100 (by decide) (by decide)
    (by decide)

/-! ### Claim C4 -/

/-- C4: when the draw tick consumes the last remaining number of a live
round whose pendingWinners is empty, the engine takes the no-winner
finalize path immediately: the drawn number is broadcast, the round is
removed from the registry, every session of the tier is purged with a
session-store purge call, and a round-ended broadcast with zero winners and
the empty-session refresh are emitted, without waiting for any claim. -/
theorem c4_exhaustion_no_winner_path (s : ServerState) (bet : ℚ) (g : GameState) (n : String)
    (hg : mapFind bet s.activeGames = some g)
    (hE : g.isGameEnded = false)
    (hR : g.remainingNumbers = [n])
    (hP : g.pendingWinners = []) :
    mapFind bet (callingTick s bet).1.activeGames = none ∧
    (callingTick s bet).1.sessions = s.sessions.filter (fun r => decide (r.betAmount ≠ bet)) ∧
    (callingTick s bet).2.1 =
      [GEvent.numberCalled bet n (g.calledNumbers ++ [n]), GEvent.timerStatesUpdate,
        GEvent.gameEnded bet [] 0 0 0, GEvent.sessionsUpdated] ∧
    (callingTick s bet).2.2 = [GEffect.purgeSessions bet] := by
  simp [callingTick, handleNoWinnerGame, endGameCompletely, stopGameCalling, updateGame,
    resetBetTimer, purgeTierSessions, hg, hE, hR, hP, mapFind_mapSet_self,
    mapFind_mapUpdate_self, mapFind_mapErase_self]

/-- C4 witness: the tick that draws the 75th number of the sample round
finalizes it with zero winners at once. -/
theorem c4_exhaustion_no_winner_path_witness :
    mapFind 10 (callingTick sLast 10).1.activeGames = none ∧
    (callingTick sLast 10).1.sessions =
      sLast.sessions.filter (fun r => decide (r.betAmount ≠ 10)) ∧
    (callingTick sLast 10).2.1 =
      [GEvent.numberCalled 10 "N-31" (gLast.calledNumbers ++ ["N-31"]),
        GEvent.timerStatesUpdate, GEvent.gameEnded 10 [] 0 0 0, GEvent.sessionsUpdated] ∧
    (callingTick sLast 10).2.2 = [GEffect.purgeSessions 10] :=
  c4_exhaustion_no_winner_path sLast 10 gLast "N-31" (by decide) (by decide) (by decide)
    (by decide)

theorem addEarnings_zero (a : UserAccount) : addEarnings a 0 = a := by
  simp [addEarnings]

theorem addEarnings_addEarnings (a : UserAccount) (q1 q2 : ℚ) :
    addEarnings (addEarnings a q1) q2 = addEarnings a (q1 + q2) := by
  simp [addEarnings, add_assoc]

/-- Unfolding of the credit loop on a winner with no stored account. -/
theorem creditWinners_cons_none (s : ServerState) (w : String × Nat)
    (rest : List (String × Nat)) (p : ℚ) (players : Nat) (bet : ℚ)
    (hw : mapFind w.1 s.users = none) :
    creditWinners s (w :: rest) p players bet =
      ((creditWinners s rest p players bet).1,
        GEffect.historyAppend w.1 w.2 p players bet ::
          (creditWinners s rest p players bet).2) := by
  simp [creditWinners, hw]

/-- Unfolding of the credit loop on a winner with a stored account. -/
theorem creditWinners_cons_some (s : ServerState) (w : String × Nat)
    (rest : List (String × Nat)) (p : ℚ) (players : Nat) (bet : ℚ) (a : UserAccount)
    (hw : mapFind w.1 s.users = some a) :
    creditWinners s (w :: rest) p players bet =
      ((creditWinners { s with users := (mapSet w.1 (addEarnings a p) s.users) }
          rest p players bet).1,
        GEffect.creditWinner w.1 p :: GEffect.historyAppend w.1 w.2 p players bet ::
          (creditWinners { s with users := (mapSet w.1 (addEarnings a p) s.users) }
            rest p players bet).2) := by
  simp [creditWinners, hw, addEarnings]

/-- The account of each user after the credit loop: every occurrence of the
user among the winners adds the per-winner prize once to all four fields. -/
theorem creditWinners_users (winners : List (String × Nat)) :
    ∀ (s : ServerState) (p : ℚ) (players : Nat) (bet : ℚ) (u : String),
      mapFind u (creditWinners s winners p players bet).1.users =
        (mapFind u s.users).map
          (fun a => addEarnings a
            (((winners.filter (fun w => decide (w.1 = u))).length : ℚ) * p)) := by
  induction winners with
  | nil =>
    intro s p players bet u
    cases h : mapFind u s.users <;> simp [creditWinners, h, addEarnings_zero]
  | cons w rest ih =>
    intro s p players bet u
    cases hw : mapFind w.1 s.users with
    | none =>
      rw [creditWinners_cons_none s w rest p players bet hw]
      by_cases hwu : w.1 = u
      · subst hwu
        rw [ih, hw]
        simp
      · rw [ih]
        simp [hwu]
    | some a =>
      rw [creditWinners_cons_some s w rest p players bet a hw]
      by_cases hwu : w.1 = u
      · subst hwu
        rw [ih, mapFind_mapSet_self, hw]
        have hcnt : ((w :: rest).filter (fun x => decide (x.1 = w.1))).length =
            (rest.filter (fun x => decide (x.1 = w.1))).length + 1 := by
          simp [List.filter_cons]
        rw [hcnt]
        simp only [Option.map_some', Option.some.injEq, addEarnings_addEarnings]
        congr 1
        push_cast
        ring
      · rw [ih, mapFind_mapSet_ne w.1 u _ _ hwu]
        simp [hwu]

/-- Every credit issued by the credit loop carries the per-winner prize. -/
theorem creditWinners_credit_amount (winners : List (String × Nat)) :
    ∀ (s : ServerState) (p : ℚ) (players : Nat) (bet : ℚ) (u : String) (q : ℚ),
      GEffect.creditWinner u q ∈ (creditWinners s winners p players bet).2 → q = p := by
  induction winners with
  | nil => intro s p players bet u q h; simp [creditWinners] at h
  | cons w rest ih =>
    intro s p players bet u q h
    cases hw : mapFind w.1 s.users with
    | none =>
      rw [creditWinners_cons_none s w rest p players bet hw] at h
      rcases List.mem_cons.mp h with h1 | h2
      · simp at h1
      · exact ih _ _ _ _ _ _ h2
    | some a =>
      rw [creditWinners_cons_some s w rest p players bet a hw] at h
      rcases List.mem_cons.mp h with h1 | h'
      · simp at h1
        exact h1.2
      · rcases List.mem_cons.mp h' with h2 | h3
        · simp at h2
        · exact ih _ _ _ _ _ _ h3

/-- C5: a finalize with a non-empty winner list reports the split
prizePool divided by the number of winners in the round-ended broadcast,
issues every credit with exactly that amount, and adds that amount, per
occurrence among the winners, to the wallet and to the daily, weekly and
total earnings accumulators of each credited account; a finalize with zero
winners issues no credit and broadcasts a zero pool and split. -/
theorem c5_equal_split_and_zero_winner (s : ServerState) (bet : ℚ) (g : GameState) (pp : ℚ)
    (hg : mapFind bet s.activeGames = some g) :
    (g.pendingWinners ≠ [] →
      (finalizeGame s bet pp).2.1 =
        [GEvent.timerStatesUpdate,
          GEvent.gameEnded bet g.pendingWinners pp (pp / (g.pendingWinners.length : ℚ))
            g.pendingWinners.length,
          GEvent.sessionsUpdated] ∧
      (∀ u q, GEffect.creditWinner u q ∈ (finalizeGame s bet pp).2.2 →
        q = pp / (g.pendingWinners.length : ℚ)) ∧
      (∀ u a, mapFind u s.users = some a →
        mapFind u (finalizeGame s bet pp).1.users =
          some (addEarnings a
            (((g.pendingWinners.filter (fun w => decide (w.1 = u))).length : ℚ) *
              (pp / (g.pendingWinners.length : ℚ)))))) ∧
    (g.pendingWinners = [] →
      (finalizeGame s bet pp).2.1 =
        [GEvent.timerStatesUpdate, GEvent.gameEnded bet [] 0 0 0, GEvent.sessionsUpdated] ∧
      creditEffectCount (finalizeGame s bet pp).2.2 = 0) := by
  constructor
  · intro hne
    have hw : g.pendingWinners.isEmpty = false := by
      cases hp : g.pendingWinners with
      | nil => exact absurd hp hne
      | cons a l => simp
    refine ⟨?_, ?_, ?_⟩
    · simp [finalizeGame, endGameCompletely, hg, hw]
    · intro u q hmem
      have heff : (finalizeGame s bet pp).2.2 =
          GEffect.purgeSessions bet ::
            (creditWinners (purgeTierSessions (endGameCompletely s bet).1 bet)
              g.pendingWinners (pp / (g.pendingWinners.length : ℚ))
              (((endGameCompletely s bet).1.sessions.filter
                (fun r => decide (r.betAmount = bet))).length) bet).2 := by
        simp [finalizeGame, hg, hw]
      rw [heff] at hmem
      rcases List.mem_cons.mp hmem with h | h
      · simp at h
      · exact creditWinners_credit_amount _ _ _ _ _ _ _ h
    · intro u a ha
      have husers : (finalizeGame s bet pp).1.users =
          (creditWinners (purgeTierSessions (endGameCompletely s bet).1 bet) g.pendingWinners
            (pp / (g.pendingWinners.length : ℚ))
            (((endGameCompletely s bet).1.sessions.filter
              (fun r => decide (r.betAmount = bet))).length) bet).1.users := by
        simp [finalizeGame, hg, hw]
      rw [husers, creditWinners_users]
      have : mapFind u (purgeTierSessions (endGameCompletely s bet).1 bet).users =
          mapFind u s.users := by
        simp [purgeTierSessions, endGameCompletely, updateGame, resetBetTimer, hg]
      rw [this, ha]
      simp
  · intro hnil
    have hw : g.pendingWinners.isEmpty = true := by simp [hnil]
    constructor
    · simp [finalizeGame, endGameCompletely, hg, hw]
    · simp [finalizeGame, endGameCompletely, hg, hw, creditEffectCount]

/-- C5 witness: finalizing the sample round with pool 100 and three winners
reports and credits a split of one third of 100 each. -/
theorem c5_equal_split_and_zero_winner_witness :
    (gThree.pendingWinners ≠ [] →
      (finalizeGame sThree 10 100).2.1 =
        [GEvent.timerStatesUpdate,
          GEvent.gameEnded 10 gThree.pendingWinners 100
            (100 / (gThree.pendingWinners.length : ℚ)) gThree.pendingWinners.length,
          GEvent.sessionsUpdated] ∧
      (∀ u q, GEffect.creditWinner u q ∈ (finalizeGame sThree 10 100).2.2 →
        q = 100 / (gThree.pendingWinners.length : ℚ)) ∧
      (∀ u a, mapFind u sThree.users = some a →
        mapFind u (finalizeGame sThree 10 100).1.users =
          some (addEarnings a
            (((gThree.pendingWinners.filter (fun w => decide (w.1 = u))).length : ℚ) *
              (100 / (gThree.pendingWinners.length : ℚ)))))) ∧
    (gThree.pendingWinners = [] →
      (finalizeGame sThree 10 100).2.1 =
        [GEvent.timerStatesUpdate, GEvent.gameEnded 10 [] 0 0 0, GEvent.sessionsUpdated] ∧
      creditEffectCount (finalizeGame sThree 10 100).2.2 = 0) :=
  c5_equal_split_and_zero_winner sThree 10 gThree 100 (by decide)

/-! ### Claim C7 -/

theorem stopCount_append (l1 l2 : List GEvent) :
    stopCount (l1 ++ l2) = stopCount l1 + stopCount l2 := by
  simp [stopCount, List.countP_append]

theorem runClaims_cons (bet : ℚ) (s : ServerState) (c : String × Nat × ℚ)
    (rest : List (String × Nat × ℚ)) :
    runClaims bet s (c :: rest) =
      ((runClaims bet (endGameHandler s bet c.1 c.2.1 c.2.2).1 rest).1,
        (endGameHandler s bet c.1 c.2.1 c.2.2).2 ++
          (runClaims bet (endGameHandler s bet c.1 c.2.1 c.2.2).1 rest).2.1,
        (if graceArmed (endGameHandler s bet c.1 c.2.1 c.2.2).1 bet &&
            !graceArmed s bet then 1 else 0) +
          (runClaims bet (endGameHandler s bet c.1 c.2.1 c.2.2).1 rest).2.2) := rfl

/-- One end-game submission can only lose the calling flag and can only
gain the grace-timer flag, and it emits a round-stopped broadcast only by
consuming the calling flag. -/
theorem claimStep_props (s : ServerState) (bet : ℚ) (wid : String) (card : Nat) (pp : ℚ) :
    stopCount (endGameHandler s bet wid card pp).2 +
        (if callingOf (endGameHandler s bet wid card pp).1 bet then 1 else 0) ≤
      (if callingOf s bet then 1 else 0) ∧
    (graceArmed s bet = true → graceArmed (endGameHandler s bet wid card pp).1 bet = true) := by
  cases hfind : mapFind bet s.activeGames with
  | none =>
    simp [endGameHandler, hfind, stopCount, List.countP_cons]
  | some g =>
    by_cases hE : g.isGameEnded
    · simp [endGameHandler, hfind, hE, stopCount, List.countP_cons]
    · by_cases hD : (wid, card) ∈ g.pendingWinners
      · simp [endGameHandler, handleWinnerSubmission, hfind, hE, hD, stopCount]
      · by_cases hC : g.isCalling
        · by_cases hT : g.gracePeriodTimer <;>
            simp [endGameHandler, handleWinnerSubmission, stopGameCalling, stopFlags,
              updateGame, callingOf, graceArmed, stopCount, List.countP_cons, hfind, hE,
              hD, hC, hT, mapFind_mapUpdate_self]
        · simp [endGameHandler, handleWinnerSubmission, stopGameCalling, stopFlags,
            updateGame, callingOf, graceArmed, stopCount, List.countP_cons, hfind, hE, hD,
            hC, mapFind_mapUpdate_self]

/-- Along any trace of end-game submissions on one tier, round-stopped
broadcasts consume the calling flag and grace-timer armings consume the
unarmed state, so each happens at most once. -/
theorem runClaims_props (bet : ℚ) : ∀ (cs : List (String × Nat × ℚ)) (s : ServerState),
    stopCount (runClaims bet s cs).2.1 +
        (if callingOf (runClaims bet s cs).1 bet then 1 else 0) ≤
      (if callingOf s bet then 1 else 0) ∧
    (runClaims bet s cs).2.2 + (if graceArmed (runClaims bet s cs).1 bet then 0 else 1) ≤
      (if graceArmed s bet then 0 else 1) := by
  intro cs
  induction cs with
  | nil => intro s; simp [runClaims, stopCount]
  | cons c rest ih =>
    intro s
    obtain ⟨h1, h2⟩ := claimStep_props s bet c.1 c.2.1 c.2.2
    obtain ⟨ih1, ih2⟩ := ih (endGameHandler s bet c.1 c.2.1 c.2.2).1
    rw [runClaims_cons]
    constructor
    · simp only [stopCount_append]
      omega
    · cases hpre : graceArmed s bet <;>
        cases hmid : graceArmed (endGameHandler s bet c.1 c.2.1 c.2.2).1 bet <;>
        simp_all

/-- C7: the Calling to GracePeriod transition happens exactly once per
round: the first accepted claim on a calling round emits exactly one
round-stopped broadcast, clears the calling flag and arms the grace timer,
and no trace of later claims on the same round ever emits another
round-stopped broadcast or re-arms the grace timer. -/
theorem c7_grace_transition_exactly_once (s : ServerState) (bet : ℚ) (g : GameState)
    (wid : String) (card : Nat) (pp : ℚ)
    (hg : mapFind bet s.activeGames = some g)
    (hE : g.isGameEnded = false)
    (hC : g.isCalling = true)
    (hT : g.gracePeriodTimer = false)
    (hD : (wid, card) ∉ g.pendingWinners) :
    stopCount (endGameHandler s bet wid card pp).2 = 1 ∧
    callingOf (endGameHandler s bet wid card pp).1 bet = false ∧
    graceArmed (endGameHandler s bet wid card pp).1 bet = true ∧
    (∀ cs, stopCount (runClaims bet (endGameHandler s bet wid card pp).1 cs).2.1 = 0 ∧
      (runClaims bet (endGameHandler s bet wid card pp).1 cs).2.2 = 0) := by
  have hfirst : stopCount (endGameHandler s bet wid card pp).2 = 1 ∧
      callingOf (endGameHandler s bet wid card pp).1 bet = false ∧
      graceArmed (endGameHandler s bet wid card pp).1 bet = true := by
    simp [endGameHandler, handleWinnerSubmission, stopGameCalling, stopFlags, updateGame,
      callingOf, graceArmed, stopCount, List.countP_cons, hg, hE, hC, hT, hD,
      mapFind_mapUpdate_self]
  refine ⟨hfirst.1, hfirst.2.1, hfirst.2.2, ?_⟩
  intro cs
  obtain ⟨hstop, hflip⟩ := runClaims_props bet cs (endGameHandler s bet wid card pp).1
  rw [hfirst.2.1] at hstop
  rw [hfirst.2.2] at hflip
  constructor
  · simp at hstop
    omega
  · simp at hflip
    omega

/-- C7 witness: on the live calling sample round, the first claim stops the
round exactly once, and no follow-up trace of claims stops it again or
re-arms the grace timer. -/
theorem c7_grace_transition_exactly_once_witness :
    stopCount (endGameHandler sLast 10 "u1" 7 100).2 = 1 ∧
    callingOf (endGameHandler sLast 10 "u1" 7 100).1 10 = false ∧
    graceArmed (endGameHandler sLast 10 "u1" 7 100).1 10 = true ∧
    (∀ cs, stopCount (runClaims 10 (endGameHandler sLast 10 "u1" 7 100).1 cs).2.1 = 0 ∧
      (runClaims 10 (endGameHandler sLast 10 "u1" 7 100).1 cs).2.2 = 0) :=
  c7_grace_transition_exactly_once sLast 10 gLast "u1" 7 100 (by decide) (by decide)
    (by decide) (by decide) (by decide)

/-! ### Claim C9 -/

theorem globalTimerTick_find (s : ServerState) (now : Nat) (bet : ℚ) :
    mapFind bet (globalTimerTick s now).1.betTimers =
      (mapFind bet s.betTimers).map (fun t => (timerTickOne (gameLiveFor s bet) now t).1) := by
  exact mapFind_entryMap bet (fun k t => (timerTickOne (gameLiveFor s k) now t).1) s.betTimers

/-- C9 counterexample: a waiting tier timer with zero participants whose
countdown reaches zero still transitions to the counting-down phase with
the 45-second window, instead of staying in waiting as the claim states. -/
theorem c9_waiting_gate_counterexample :
    (mapFind 10 sNoPlayers.betTimers).map (fun t => t.status) = some TStatus.ready ∧
    (mapFind 10 sNoPlayers.betTimers).map (fun t => t.playerCount) = some 0 ∧
    (mapFind 10 (globalTimerTick sNoPlayers 0).1.betTimers).map (fun t => t.status) =
      some TStatus.active ∧
    (mapFind 10 (globalTimerTick sNoPlayers 0).1.betTimers).map (fun t => t.timer) =
      some 45 := by decide

/-- C9 amended: when a waiting tier timer reaches zero on the global tick,
it transitions to the counting-down phase with the fixed 45-second window
and records the window start, unconditionally: no eligible-participant
check is consulted, with or without participants. -/
theorem c9_waiting_transition_unconditional (s : ServerState) (now : Nat) (bet : ℚ)
    (t : BetTimerState)
    (hg : mapFind bet s.betTimers = some t)
    (hs : t.status = TStatus.ready)
    (ht : t.timer ≤ 1) :
    mapFind bet (globalTimerTick s now).1.betTimers =
      some { status := TStatus.active, timer := 45, playerCount := t.playerCount,
             prizePool := t.prizePool, createdAt := some now } := by
  rw [globalTimerTick_find, hg]
  simp [timerTickOne, hs, ht]

/-- C9 witness: the sample waiting timer with no participants is moved to
counting-down with the 45-second window by the tick. -/
theorem c9_waiting_transition_unconditional_witness :
    mapFind 10 (globalTimerTick sNoPlayers 3).1.betTimers =
      some { status := TStatus.active, timer := 45, playerCount := tmrReadyZero.playerCount,
             prizePool := tmrReadyZero.prizePool, createdAt := some 3 } :=
  c9_waiting_transition_unconditional sNoPlayers 3 10 tmrReadyZero (by decide) (by decide)
    (by decide)

theorem AllInv_mapUpdate {m : List (ℚ × GameState)} (bet : ℚ) (f : GameState → GameState)
    (hf : ∀ g, RoundInv g → RoundInv (f g)) (h : AllInv m) : AllInv (mapUpdate bet f m) := by
  intro b g hfind
  by_cases hb : bet = b
  · subst hb
    rw [mapFind_mapUpdate_self] at hfind
    cases hm : mapFind bet m with
    | none => rw [hm] at hfind; simp at hfind
    | some g0 =>
      rw [hm] at hfind
      simp at hfind
      exact hfind ▸ hf g0 (h bet g0 hm)
  · rw [mapFind_mapUpdate_ne bet b f m hb] at hfind
    exact h b g hfind

theorem AllInv_mapErase {m : List (ℚ × GameState)} (bet : ℚ) (h : AllInv m) :
    AllInv (mapErase bet m) := by
  intro b g hfind
  by_cases hb : bet = b
  · subst hb
    rw [mapFind_mapErase_self] at hfind
    cases hfind
  · rw [mapFind_mapErase_ne bet b m hb] at hfind
    exact h b g hfind

theorem AllInv_mapSet {m : List (ℚ × GameState)} (bet : ℚ) (gNew : GameState)
    (hg : RoundInv gNew) (h : AllInv m) : AllInv (mapSet bet gNew m) := by
  intro b g hfind
  by_cases hb : bet = b
  · subst hb
    rw [mapFind_mapSet_self] at hfind
    cases hfind
    exact hg
  · rw [mapFind_mapSet_ne bet b gNew m hb] at hfind
    exact h b g hfind

/-- C8: the number-pool invariant holds after round initialization and is
preserved by every draw tick, and it entails the spec properties: no
duplicates in calledNumbers or remainingNumbers, disjointness, lengths
summing to 75, and the union being exactly the 75-label pool. -/
theorem c8_pool_invariant (rand : Nat → Nat) (hr : ∀ k, rand k ≤ k) (s : ServerState)
    (bet : ℚ) (hall : AllInv s.activeGames) :
    AllInv (startGameHandler rand s bet).1.activeGames ∧
    AllInv (callingTick s bet).1.activeGames ∧
    (∀ g : GameState, RoundInv g →
      g.calledNumbers.Nodup ∧ g.remainingNumbers.Nodup ∧
      (∀ x ∈ g.calledNumbers, x ∉ g.remainingNumbers) ∧
      g.calledNumbers.length + g.remainingNumbers.length = 75 ∧
      (∀ x, (x ∈ g.calledNumbers ∨ x ∈ g.remainingNumbers) ↔
        x ∈ generateAllBingoNumbers)) := by
  have hfresh : RoundInv (freshRound rand bet) := by
    unfold RoundInv freshRound
    simpa using shuffleNumbers_perm rand hr generateAllBingoNumbers
  refine ⟨?_, ?_, ?_⟩
  · cases hfind : mapFind bet s.activeGames with
    | none =>
      have hstate : (startGameHandler rand s bet).1.activeGames =
          mapSet bet (freshRound rand bet) s.activeGames := by
        simp [startGameHandler, startGameCalling, hfind, mapFind_mapSet_self]
      intro b g hfind'
      rw [hstate] at hfind'
      exact AllInv_mapSet bet _ hfresh hall b g hfind'
    | some g0 =>
      by_cases hE : g0.isGameEnded = true
      · have hstate : (startGameHandler rand s bet).1.activeGames =
            mapSet bet (freshRound rand bet) s.activeGames := by
          simp [startGameHandler, startGameCalling, hfind, hE, mapFind_mapSet_self]
        intro b g hfind'
        rw [hstate] at hfind'
        exact AllInv_mapSet bet _ hfresh hall b g hfind'
      · have hstate : (startGameHandler rand s bet).1.activeGames = s.activeGames := by
          simp [startGameHandler, hfind, hE]
        intro b g hfind'
        rw [hstate] at hfind'
        exact hall b g hfind'
  · cases hfind : mapFind bet s.activeGames with
    | none =>
      have hstate : (callingTick s bet).1.activeGames =
          mapUpdate bet stopFlags s.activeGames := by
        simp [callingTick, hfind, stopGameCalling, updateGame]
      intro b g hfind'
      rw [hstate] at hfind'
      exact AllInv_mapUpdate bet stopFlags (fun _ h => h) hall b g hfind'
    | some g0 =>
      have hinv0 : RoundInv g0 := hall bet g0 hfind
      cases hrem : g0.remainingNumbers with
      | nil =>
        by_cases hpend : g0.pendingWinners.isEmpty = true
        · have hstate : (callingTick s bet).1.activeGames =
              mapErase bet (mapUpdate bet endFlags (mapUpdate bet stopFlags s.activeGames)) := by
            simp [callingTick, hfind, hrem, hpend, handleNoWinnerGame, stopGameCalling,
              updateGame, endGameCompletely, purgeTierSessions, resetBetTimer,
              mapFind_mapUpdate_self]
          intro b g hfind'
          rw [hstate] at hfind'
          exact AllInv_mapErase bet
            (AllInv_mapUpdate bet endFlags (fun _ h => h)
              (AllInv_mapUpdate bet stopFlags (fun _ h => h) hall)) b g hfind'
        · have hstate : (callingTick s bet).1.activeGames =
              mapUpdate bet stopFlags s.activeGames := by
            simp [callingTick, hfind, hrem, hpend, stopGameCalling, updateGame]
          intro b g hfind'
          rw [hstate] at hfind'
          exact AllInv_mapUpdate bet stopFlags (fun _ h => h) hall b g hfind'
      | cons n rest =>
        have hperm : (g0.calledNumbers ++ n :: rest).Perm generateAllBingoNumbers := by
          have hx := hinv0
          unfold RoundInv at hx
          rwa [hrem] at hx
        by_cases hE : g0.isGameEnded = true
        · have hstate : (callingTick s bet).1.activeGames =
              mapUpdate bet stopFlags s.activeGames := by
            simp [callingTick, hfind, hrem, hE, stopGameCalling, updateGame]
          intro b g hfind'
          rw [hstate] at hfind'
          exact AllInv_mapUpdate bet stopFlags (fun _ h => h) hall b g hfind'
        · cases hrest : rest with
          | nil =>
            have hg1 : RoundInv { g0 with
                calledNumbers := g0.calledNumbers ++ [n], remainingNumbers := [] } := by
              unfold RoundInv
              rw [hrest] at hperm
              simpa using hperm
            by_cases hpend : g0.pendingWinners.isEmpty = true
            · have hstate : (callingTick s bet).1.activeGames =
                  mapErase bet
                    (mapUpdate bet endFlags
                      (mapUpdate bet stopFlags
                        (mapSet bet
                          ({ g0 with calledNumbers := g0.calledNumbers ++ [n], remainingNumbers := [] })
                          s.activeGames))) := by
                simp [callingTick, hfind, hrem, hrest, hE, hpend, handleNoWinnerGame,
                  stopGameCalling, updateGame, endGameCompletely, purgeTierSessions,
                  resetBetTimer, mapFind_mapUpdate_self, mapFind_mapSet_self]
              intro b g hfind'
              rw [hstate] at hfind'
              exact AllInv_mapErase bet
                (AllInv_mapUpdate bet endFlags (fun _ h => h)
                  (AllInv_mapUpdate bet stopFlags (fun _ h => h)
                    (AllInv_mapSet bet _ hg1 hall))) b g hfind'
            · have hstate : (callingTick s bet).1.activeGames =
                  mapUpdate bet stopFlags
                    (mapSet bet
                      ({ g0 with calledNumbers := g0.calledNumbers ++ [n], remainingNumbers := [] })
                      s.activeGames) := by
                simp [callingTick, hfind, hrem, hrest, hE, hpend, stopGameCalling,
                  updateGame, mapFind_mapSet_self]
              intro b g hfind'
              rw [hstate] at hfind'
              exact AllInv_mapUpdate bet stopFlags (fun _ h => h)
                (AllInv_mapSet bet _ hg1 hall) b g hfind'
          | cons m rest2 =>
            have hg1 : RoundInv { g0 with
                calledNumbers := g0.calledNumbers ++ [n],
                remainingNumbers := m :: rest2 } := by
              unfold RoundInv
              rw [hrest] at hperm
              simpa using hperm
            have hstate : (callingTick s bet).1.activeGames =
                mapSet bet
                  ({ g0 with calledNumbers := g0.calledNumbers ++ [n], remainingNumbers := m :: rest2 })
                  s.activeGames := by
              simp [callingTick, hfind, hrem, hrest, hE]
            intro b g hfind'
            rw [hstate] at hfind'
            exact AllInv_mapSet bet _ hg1 hall b g hfind'
  · intro g hg
    unfold RoundInv at hg
    have hnd : (g.calledNumbers ++ g.remainingNumbers).Nodup :=
      hg.nodup_iff.mpr generateAllBingoNumbers_nodup
    rw [List.nodup_append] at hnd
    refine ⟨hnd.1, hnd.2.1, ?_, ?_, ?_⟩
    · intro x hx
      exact hnd.2.2 hx
    · have hlen := hg.length_eq
      rw [List.length_append, generateAllBingoNumbers_length] at hlen
      exact hlen
    · intro x
      rw [← List.mem_append]
      exact hg.mem_iff

/-- C8 witness: over the empty registry, initialization and the draw tick
establish and preserve the pool invariant for a deterministic swap choice. -/
theorem c8_pool_invariant_witness :
    AllInv (startGameHandler (fun _ => 0) sEmpty 10).1.activeGames ∧
    AllInv (callingTick sEmpty 10).1.activeGames ∧
    (∀ g : GameState, RoundInv g →
      g.calledNumbers.Nodup ∧ g.remainingNumbers.Nodup ∧
      (∀ x ∈ g.calledNumbers, x ∉ g.remainingNumbers) ∧
      g.calledNumbers.length + g.remainingNumbers.length = 75 ∧
      (∀ x, (x ∈ g.calledNumbers ∨ x ∈ g.remainingNumbers) ↔
        x ∈ generateAllBingoNumbers)) :=
  c8_pool_invariant (fun _ => 0) (fun k => Nat.zero_le k) sEmpty 10
    (by intro b g h; simp [mapFind, sEmpty] at h)

/-! ### Set and key lemmas for the repository -/

theorem mem_saddElem {x y : String} {l : List String} :
    x ∈ saddElem y l ↔ x = y ∨ x ∈ l := by
  by_cases h : y ∈ l
  · simp only [saddElem, if_pos h]
    constructor
    · exact Or.inr
    · rintro (rfl | hx)
      · exact h
      · exact hx
  · simp [saddElem, if_neg h, List.mem_append]
    exact Or.comm

theorem saddElem_nodup {y : String} {l : List String} (h : l.Nodup) :
    (saddElem y l).Nodup := by
  by_cases hy : y ∈ l
  · simpa [saddElem, if_pos hy] using h
  · simp [saddElem, if_neg hy, List.nodup_append, h, hy]

theorem mem_sremElem {x y : String} {l : List String} :
    x ∈ sremElem y l ↔ x ∈ l ∧ x ≠ y := by
  simp [sremElem, List.mem_filter]

theorem sremElem_nodup {y : String} {l : List String} (h : l.Nodup) :
    (sremElem y l).Nodup := h.filter _

theorem mapFind_eq_none_iff {κ β : Type} [DecidableEq κ] {k : κ} {m : List (κ × β)} :
    mapFind k m = none ↔ k ∉ m.map Prod.fst := by
  induction m with
  | nil => simp [mapFind]
  | cons p rest ih =>
    by_cases h : p.1 = k
    · simp [mapFind, h]
    · simp [mapFind, h, ih, Ne.symm h]

theorem mapSet_keys_of_some {κ β : Type} [DecidableEq κ] {k : κ} {v v' : β}
    {m : List (κ × β)} (h : mapFind k m = some v) :
    (mapSet k v' m).map Prod.fst = m.map Prod.fst := by
  induction m with
  | nil => simp [mapFind] at h
  | cons p rest ih =>
    by_cases hp : p.1 = k
    · simp [mapSet, hp]
    · rw [mapFind, if_neg hp] at h
      simp [mapSet, hp, ih h]

theorem mapErase_keys_sublist {κ β : Type} [DecidableEq κ] (k : κ) (m : List (κ × β)) :
    ((mapErase k m).map Prod.fst).Sublist (m.map Prod.fst) := by
  induction m with
  | nil => simp [mapErase]
  | cons p rest ih =>
    by_cases hp : p.1 = k
    · simp only [mapErase, if_pos hp, List.map_cons]
      exact ih.cons _
    · simp only [mapErase, if_neg hp, List.map_cons]
      exact ih.cons₂ _

theorem mapFind_mapSet {κ β : Type} [DecidableEq κ] (k k' : κ) (v : β) (m : List (κ × β)) :
    mapFind k' (mapSet k v m) = if k = k' then some v else mapFind k' m := by
  by_cases h : k = k'
  · subst h; simp [mapFind_mapSet_self]
  · simp [h, mapFind_mapSet_ne k k' v m h]

theorem mapFind_mapErase {κ β : Type} [DecidableEq κ] (k k' : κ) (m : List (κ × β)) :
    mapFind k' (mapErase k m) = if k = k' then none else mapFind k' m := by
  by_cases h : k = k'
  · subst h; simp [mapFind_mapErase_self]
  · simp [h, mapFind_mapErase_ne k k' m h]

theorem mapSet_keys_of_none {κ β : Type} [DecidableEq κ] {k : κ} {v : β} {m : List (κ × β)}
    (h : mapFind k m = none) :
    (mapSet k v m).map Prod.fst = m.map Prod.fst ++ [k] := by
  induction m with
  | nil => simp [mapSet]
  | cons p rest ih =>
    by_cases hp : p.1 = k
    · rw [mapFind, if_pos hp] at h
      simp at h
    · rw [mapFind, if_neg hp] at h
      simp [mapSet, hp, ih h]

theorem mapSet_eq_of_find_eq {κ β : Type} [DecidableEq κ] {k : κ} {v : β} {m : List (κ × β)}
    (h : mapFind k m = some v) : mapSet k v m = m := by
  induction m with
  | nil => simp [mapFind] at h
  | cons p rest ih =>
    by_cases hp : p.1 = k
    · rw [mapFind, if_pos hp] at h
      simp only [Option.some.injEq] at h
      simp only [mapSet, if_pos hp]
      rw [← hp, ← h]
    · rw [mapFind, if_neg hp] at h
      simp [mapSet, hp, ih h]

/-! ### The shapes of the repository operations -/

theorem createOp_eq (st : RedisState) (id userId : String) (card : Nat) (bet : ℚ)
    (sst : Option SessionStatus) (createdAt : String) :
    createOp st id userId card bet sst createdAt =
      { store := mapSet id (mkSession id userId card bet sst createdAt) st.store,
        allSet := saddElem id st.allSet,
        betSets := fAdd bet id st.betSets,
        statusSets := fAdd (sst.getD SessionStatus.active) id st.statusSets } := rfl

theorem applyStatusUpdate_none_eq (st : RedisState) (target : GameSessionDTO)
    (hstored : mapFind target._id st.store = some target) :
    applyStatusUpdate st target none = st := by
  show writeSession st target = st
  show { st with store := mapSet target._id target st.store } = st
  rw [mapSet_eq_of_find_eq hstored]

theorem applyStatusUpdate_some_eq (st : RedisState) (target : GameSessionDTO)
    (hstored : mapFind target._id st.store = some target) :
    applyStatusUpdate st target (some target.status) = st := by
  show (if target.status ≠ target.status then _ else writeSession st { target with status := target.status }) = st
  rw [if_neg (by simp)]
  show { st with store := mapSet target._id target st.store } = st
  rw [mapSet_eq_of_find_eq hstored]

theorem applyStatusUpdate_ne_eq (st : RedisState) (target : GameSessionDTO)
    (newSt : SessionStatus) (hne : newSt ≠ target.status) :
    applyStatusUpdate st target (some newSt) =
      { store := mapSet target._id ({ target with status := newSt }) st.store,
        allSet := st.allSet,
        betSets := st.betSets,
        statusSets := fAdd newSt target._id (fRem target.status target._id st.statusSets) } := by
  have hstep : applyStatusUpdate st target (some newSt) =
      if newSt ≠ target.status then
        { writeSession st ({ target with status := newSt }) with statusSets :=
            (fAdd newSt target._id (fRem target.status target._id st.statusSets)) }
      else writeSession st ({ target with status := newSt }) := rfl
  rw [hstep, if_pos hne]
  rfl

theorem deleteStep_eq (st : RedisState) (s : GameSessionDTO) :
    delSessionKey (deindexSession st s) s._id =
      { store := mapErase s._id st.store,
        allSet := sremElem s._id st.allSet,
        betSets := fRem s.betAmount s._id st.betSets,
        statusSets := fRem s.status s._id st.statusSets } := rfl

/-! ### Preservation of the index-consistency invariant -/

theorem RInv_create (st : RedisState) (id userId : String) (card : Nat) (bet : ℚ)
    (sst : Option SessionStatus) (createdAt : String) (h : RInv st)
    (hfresh : mapFind id st.store = none) :
    RInv (createOp st id userId card bet sst createdAt) := by
  have hid : id ∉ st.store.map Prod.fst := mapFind_eq_none_iff.mp hfresh
  have hnotall : id ∉ st.allSet := fun hmem => (h.allStored id hmem) hfresh
  have hnotbet : ∀ b, id ∉ st.betSets b := fun b hmem => (h.betStored b id hmem) hfresh
  have hnotstatus : ∀ c, id ∉ st.statusSets c :=
    fun c hmem => (h.statusStored c id hmem) hfresh
  rw [createOp_eq]
  constructor
  · rw [mapSet_keys_of_none hfresh]
    simp [List.nodup_append, h.storeNodup, hid]
  · exact saddElem_nodup h.allNodup
  · intro b
    simp only [fAdd]
    by_cases hb : b = bet
    · rw [if_pos hb]
      exact saddElem_nodup (h.betNodup bet)
    · rw [if_neg hb]
      exact h.betNodup b
  · intro c
    simp only [fAdd]
    by_cases hc : c = sst.getD SessionStatus.active
    · rw [if_pos hc]
      exact saddElem_nodup (h.statusNodup _)
    · rw [if_neg hc]
      exact h.statusNodup c
  · intro x s0 hx
    rw [mapFind_mapSet] at hx
    by_cases hxi : id = x
    · rw [if_pos hxi] at hx
      cases hx
      exact hxi ▸ rfl
    · rw [if_neg hxi] at hx
      exact h.keyOk x s0 hx
  · intro x s0 hx
    rw [mapFind_mapSet] at hx
    by_cases hxi : id = x
    · exact mem_saddElem.mpr (Or.inl hxi.symm)
    · rw [if_neg hxi] at hx
      exact mem_saddElem.mpr (Or.inr (h.inAll x s0 hx))
  · intro x s0 hx
    rw [mapFind_mapSet] at hx
    by_cases hxi : id = x
    · rw [if_pos hxi] at hx
      cases hx
      subst hxi
      simp [fAdd, mkSession, mem_saddElem]
    · rw [if_neg hxi] at hx
      have hmem := h.inBet x s0 hx
      simp only [fAdd]
      by_cases hb : s0.betAmount = bet
      · rw [if_pos hb]
        exact mem_saddElem.mpr (Or.inr (hb ▸ hmem))
      · rw [if_neg hb]
        exact hmem
  · intro x s0 hx
    rw [mapFind_mapSet] at hx
    by_cases hxi : id = x
    · rw [if_pos hxi] at hx
      cases hx
      subst hxi
      simp [fAdd, mkSession, mem_saddElem]
    · rw [if_neg hxi] at hx
      have hmem := h.inStatus x s0 hx
      simp only [fAdd]
      by_cases hc : s0.status = sst.getD SessionStatus.active
      · rw [if_pos hc]
        exact mem_saddElem.mpr (Or.inr (hc ▸ hmem))
      · rw [if_neg hc]
        exact hmem
  · intro x s0 hx b hb
    rw [mapFind_mapSet] at hx
    simp only [fAdd] at hb
    by_cases hxi : id = x
    · rw [if_pos hxi] at hx
      cases hx
      subst hxi
      by_cases hbb : b = bet
      · simp [mkSession, hbb]
      · rw [if_neg hbb] at hb
        exact absurd hb (hnotbet b)
    · rw [if_neg hxi] at hx
      by_cases hbb : b = bet
      · rw [if_pos hbb] at hb
        rcases mem_saddElem.mp hb with hxx | hb'
        · exact absurd hxx.symm hxi
        · exact hbb.trans (h.betExcl x s0 hx bet hb')
      · rw [if_neg hbb] at hb
        exact h.betExcl x s0 hx b hb
  · intro x s0 hx c hc
    rw [mapFind_mapSet] at hx
    simp only [fAdd] at hc
    by_cases hxi : id = x
    · rw [if_pos hxi] at hx
      cases hx
      subst hxi
      by_cases hcc : c = sst.getD SessionStatus.active
      · simp [mkSession, hcc]
      · rw [if_neg hcc] at hc
        exact absurd hc (hnotstatus c)
    · rw [if_neg hxi] at hx
      by_cases hcc : c = sst.getD SessionStatus.active
      · rw [if_pos hcc] at hc
        rcases mem_saddElem.mp hc with hxx | hc'
        · exact absurd hxx.symm hxi
        · exact hcc.trans (h.statusExcl x s0 hx _ hc')
      · rw [if_neg hcc] at hc
        exact h.statusExcl x s0 hx c hc
  · intro x hx
    rw [mapFind_mapSet]
    rcases mem_saddElem.mp hx with hxx | hx'
    · rw [if_pos hxx.symm]
      simp
    · by_cases hxi : id = x
      · rw [if_pos hxi]; simp
      · rw [if_neg hxi]
        exact h.allStored x hx'
  · intro b x hx
    rw [mapFind_mapSet]
    simp only [fAdd] at hx
    by_cases hbb : b = bet
    · rw [if_pos hbb] at hx
      rcases mem_saddElem.mp hx with hxx | hx'
      · rw [if_pos hxx.symm]; simp
      · by_cases hxi : id = x
        · rw [if_pos hxi]; simp
        · rw [if_neg hxi]
          exact h.betStored bet x hx'
    · rw [if_neg hbb] at hx
      by_cases hxi : id = x
      · rw [if_pos hxi]; simp
      · rw [if_neg hxi]
        exact h.betStored b x hx
  · intro c x hx
    rw [mapFind_mapSet]
    simp only [fAdd] at hx
    by_cases hcc : c = sst.getD SessionStatus.active
    · rw [if_pos hcc] at hx
      rcases mem_saddElem.mp hx with hxx | hx'
      · rw [if_pos hxx.symm]; simp
      · by_cases hxi : id = x
        · rw [if_pos hxi]; simp
        · rw [if_neg hxi]
          exact h.statusStored _ x hx'
    · rw [if_neg hcc] at hx
      by_cases hxi : id = x
      · rw [if_pos hxi]; simp
      · rw [if_neg hxi]
        exact h.statusStored c x hx

theorem RInv_statusUpdate (st : RedisState) (target : GameSessionDTO)
    (upd : Option SessionStatus) (h : RInv st)
    (hstored : mapFind target._id st.store = some target) :
    RInv (applyStatusUpdate st target upd) := by
  cases upd with
  | none =>
    rw [applyStatusUpdate_none_eq st target hstored]
    exact h
  | some newSt =>
    by_cases hne : newSt = target.status
    · rw [hne, applyStatusUpdate_some_eq st target hstored]
      exact h
    · rw [applyStatusUpdate_ne_eq st target newSt hne]
      constructor
      · rw [mapSet_keys_of_some hstored]
        exact h.storeNodup
      · exact h.allNodup
      · exact h.betNodup
      · intro c
        simp only [fAdd, fRem]
        by_cases hc : c = newSt
        · rw [if_pos hc, if_neg hne]
          exact saddElem_nodup (h.statusNodup newSt)
        · rw [if_neg hc]
          by_cases hct : c = target.status
          · rw [if_pos hct]
            exact sremElem_nodup (h.statusNodup _)
          · rw [if_neg hct]
            exact h.statusNodup c
      · intro x s0 hx
        rw [mapFind_mapSet] at hx
        by_cases hxi : target._id = x
        · rw [if_pos hxi] at hx
          cases hx
          exact hxi ▸ rfl
        · rw [if_neg hxi] at hx
          exact h.keyOk x s0 hx
      · intro x s0 hx
        rw [mapFind_mapSet] at hx
        by_cases hxi : target._id = x
        · rw [← hxi]
          exact h.inAll target._id target hstored
        · rw [if_neg hxi] at hx
          exact h.inAll x s0 hx
      · intro x s0 hx
        rw [mapFind_mapSet] at hx
        by_cases hxi : target._id = x
        · rw [if_pos hxi] at hx
          cases hx
          rw [← hxi]
          exact h.inBet target._id target hstored
        · rw [if_neg hxi] at hx
          exact h.inBet x s0 hx
      · intro x s0 hx
        rw [mapFind_mapSet] at hx
        simp only [fAdd, fRem]
        by_cases hxi : target._id = x
        · rw [if_pos hxi] at hx
          cases hx
          rw [if_pos rfl]
          exact mem_saddElem.mpr (Or.inl hxi.symm)
        · rw [if_neg hxi] at hx
          have hmem := h.inStatus x s0 hx
          by_cases hc : s0.status = newSt
          · rw [if_pos hc, if_neg hne]
            exact mem_saddElem.mpr (Or.inr (hc ▸ hmem))
          · rw [if_neg hc]
            by_cases hct : s0.status = target.status
            · rw [if_pos hct]
              exact mem_sremElem.mpr ⟨hct ▸ hmem, fun hh => hxi hh.symm⟩
            · rw [if_neg hct]
              exact hmem
      · intro x s0 hx b hb
        rw [mapFind_mapSet] at hx
        by_cases hxi : target._id = x
        · rw [if_pos hxi] at hx
          cases hx
          exact h.betExcl x target (hxi ▸ hstored) b hb
        · rw [if_neg hxi] at hx
          exact h.betExcl x s0 hx b hb
      · intro x s0 hx c hc
        rw [mapFind_mapSet] at hx
        simp only [fAdd, fRem] at hc
        by_cases hxi : target._id = x
        · rw [if_pos hxi] at hx
          cases hx
          by_cases hcn : c = newSt
          · exact hcn
          · rw [if_neg hcn] at hc
            by_cases hct : c = target.status
            · rw [if_pos hct] at hc
              exact absurd (mem_sremElem.mp hc).2 (by simp [hxi])
            · rw [if_neg hct] at hc
              exact absurd (h.statusExcl x target (hxi ▸ hstored) c hc) hct
        · rw [if_neg hxi] at hx
          by_cases hcn : c = newSt
          · rw [if_pos hcn] at hc
            rcases mem_saddElem.mp hc with hxx | hc'
            · exact absurd hxx.symm hxi
            · rw [if_neg hne] at hc'
              exact hcn.trans (h.statusExcl x s0 hx newSt hc')
          · rw [if_neg hcn] at hc
            by_cases hct : c = target.status
            · rw [if_pos hct] at hc
              exact hct ▸ h.statusExcl x s0 hx _ (hct ▸ (mem_sremElem.mp hc).1)
            · rw [if_neg hct] at hc
              exact h.statusExcl x s0 hx c hc
      · intro x hx
        rw [mapFind_mapSet]
        by_cases hxi : target._id = x
        · rw [if_pos hxi]; simp
        · rw [if_neg hxi]
          exact h.allStored x hx
      · intro b x hx
        rw [mapFind_mapSet]
        by_cases hxi : target._id = x
        · rw [if_pos hxi]; simp
        · rw [if_neg hxi]
          exact h.betStored b x hx
      · intro c x hx
        rw [mapFind_mapSet]
        simp only [fAdd, fRem] at hx
        by_cases hxi : target._id = x
        · rw [if_pos hxi]; simp
        · rw [if_neg hxi]
          by_cases hcn : c = newSt
          · rw [if_pos hcn] at hx
            rcases mem_saddElem.mp hx with hxx | hx'
            · exact absurd hxx.symm hxi
            · rw [if_neg hne] at hx'
              exact h.statusStored newSt x hx'
          · rw [if_neg hcn] at hx
            by_cases hct : c = target.status
            · rw [if_pos hct] at hx
              exact h.statusStored _ x (mem_sremElem.mp hx).1
            · rw [if_neg hct] at hx
              exact h.statusStored c x hx

theorem RInv_deleteStep (st : RedisState) (s : GameSessionDTO) (h : RInv st)
    (hstored : mapFind s._id st.store = some s) :
    RInv (delSessionKey (deindexSession st s) s._id) := by
  rw [deleteStep_eq]
  constructor
  · exact h.storeNodup.sublist (mapErase_keys_sublist s._id st.store)
  · exact sremElem_nodup h.allNodup
  · intro b
    simp only [fRem]
    by_cases hb : b = s.betAmount
    · rw [if_pos hb]
      exact sremElem_nodup (h.betNodup _)
    · rw [if_neg hb]
      exact h.betNodup b
  · intro c
    simp only [fRem]
    by_cases hc : c = s.status
    · rw [if_pos hc]
      exact sremElem_nodup (h.statusNodup _)
    · rw [if_neg hc]
      exact h.statusNodup c
  · intro x s0 hx
    rw [mapFind_mapErase] at hx
    by_cases hxi : s._id = x
    · rw [if_pos hxi] at hx
      cases hx
    · rw [if_neg hxi] at hx
      exact h.keyOk x s0 hx
  · intro x s0 hx
    rw [mapFind_mapErase] at hx
    by_cases hxi : s._id = x
    · rw [if_pos hxi] at hx
      cases hx
    · rw [if_neg hxi] at hx
      exact mem_sremElem.mpr ⟨h.inAll x s0 hx, fun hh => hxi hh.symm⟩
  · intro x s0 hx
    rw [mapFind_mapErase] at hx
    by_cases hxi : s._id = x
    · rw [if_pos hxi] at hx
      cases hx
    · rw [if_neg hxi] at hx
      have hmem := h.inBet x s0 hx
      simp only [fRem]
      by_cases hb : s0.betAmount = s.betAmount
      · rw [if_pos hb]
        exact mem_sremElem.mpr ⟨hb ▸ hmem, fun hh => hxi hh.symm⟩
      · rw [if_neg hb]
        exact hmem
  · intro x s0 hx
    rw [mapFind_mapErase] at hx
    by_cases hxi : s._id = x
    · rw [if_pos hxi] at hx
      cases hx
    · rw [if_neg hxi] at hx
      have hmem := h.inStatus x s0 hx
      simp only [fRem]
      by_cases hc : s0.status = s.status
      · rw [if_pos hc]
        exact mem_sremElem.mpr ⟨hc ▸ hmem, fun hh => hxi hh.symm⟩
      · rw [if_neg hc]
        exact hmem
  · intro x s0 hx b hb
    rw [mapFind_mapErase] at hx
    by_cases hxi : s._id = x
    · rw [if_pos hxi] at hx
      cases hx
    · rw [if_neg hxi] at hx
      simp only [fRem] at hb
      by_cases hbb : b = s.betAmount
      · rw [if_pos hbb] at hb
        exact hbb ▸ h.betExcl x s0 hx _ (hbb ▸ (mem_sremElem.mp hb).1)
      · rw [if_neg hbb] at hb
        exact h.betExcl x s0 hx b hb
  · intro x s0 hx c hc
    rw [mapFind_mapErase] at hx
    by_cases hxi : s._id = x
    · rw [if_pos hxi] at hx
      cases hx
    · rw [if_neg hxi] at hx
      simp only [fRem] at hc
      by_cases hcc : c = s.status
      · rw [if_pos hcc] at hc
        exact hcc ▸ h.statusExcl x s0 hx _ (hcc ▸ (mem_sremElem.mp hc).1)
      · rw [if_neg hcc] at hc
        exact h.statusExcl x s0 hx c hc
  · intro x hx
    rcases mem_sremElem.mp hx with ⟨hx', hxne⟩
    rw [mapFind_mapErase, if_neg (fun hh => hxne hh.symm)]
    exact h.allStored x hx'
  · intro b x hx
    simp only [fRem] at hx
    rw [mapFind_mapErase]
    by_cases hbb : b = s.betAmount
    · rw [if_pos hbb] at hx
      rcases mem_sremElem.mp hx with ⟨hx', hxne⟩
      rw [if_neg (fun hh => hxne hh.symm)]
      exact h.betStored _ x hx'
    · rw [if_neg hbb] at hx
      by_cases hxi : s._id = x
      · exact absurd ((h.betExcl x s ((hxi : s._id = x) ▸ hstored) b hx)) hbb
      · rw [if_neg hxi]
        exact h.betStored b x hx
  · intro c x hx
    simp only [fRem] at hx
    rw [mapFind_mapErase]
    by_cases hcc : c = s.status
    · rw [if_pos hcc] at hx
      rcases mem_sremElem.mp hx with ⟨hx', hxne⟩
      rw [if_neg (fun hh => hxne hh.symm)]
      exact h.statusStored _ x hx'
    · rw [if_neg hcc] at hx
      by_cases hxi : s._id = x
      · exact absurd ((h.statusExcl x s ((hxi : s._id = x) ▸ hstored) c hx)) hcc
      · rw [if_neg hxi]
        exact h.statusStored c x hx

theorem applyStatusUpdate_store (st : RedisState) (target : GameSessionDTO)
    (upd : Option SessionStatus) :
    (applyStatusUpdate st target upd).store =
      mapSet target._id ({ target with status := upd.getD target.status }) st.store := by
  cases upd with
  | none => rfl
  | some newSt =>
    by_cases hne : newSt = target.status
    · have hstep : applyStatusUpdate st target (some newSt) =
          if newSt ≠ target.status then
            { writeSession st ({ target with status := newSt }) with statusSets :=
                (fAdd newSt target._id (fRem target.status target._id st.statusSets)) }
          else writeSession st ({ target with status := newSt }) := rfl
      rw [hstep, if_neg (by simp [hne])]
      rfl
    · rw [applyStatusUpdate_ne_eq st target newSt hne]
      rfl

theorem applyStatusUpdate_find_ne (st : RedisState) (target : GameSessionDTO)
    (upd : Option SessionStatus) (x : String) (hx : target._id ≠ x) :
    mapFind x (applyStatusUpdate st target upd).store = mapFind x st.store := by
  rw [applyStatusUpdate_store, mapFind_mapSet, if_neg hx]

theorem deleteStep_find_ne (st : RedisState) (s : GameSessionDTO) (x : String)
    (hx : s._id ≠ x) :
    mapFind x (delSessionKey (deindexSession st s) s._id).store = mapFind x st.store := by
  rw [deleteStep_eq]
  exact mapFind_mapErase_ne s._id x st.store hx

theorem RInv_updateManyLoop (upd : Option SessionStatus) :
    ∀ (items : List GameSessionDTO) (st : RedisState), RInv st →
      (∀ x ∈ items, mapFind x._id st.store = some x) →
      (items.map (fun s => s._id)).Nodup →
      RInv (updateManyLoop st items upd) := by
  intro items
  induction items with
  | nil => intro st h _ _; exact h
  | cons s rest ih =>
    intro st h hstored hnd
    have hs := hstored s (List.mem_cons_self s rest)
    have hnotin : s._id ∉ rest.map (fun t => t._id) := (List.nodup_cons.mp hnd).1
    show RInv (updateManyLoop (applyStatusUpdate st s upd) rest upd)
    apply ih
    · exact RInv_statusUpdate st s upd h hs
    · intro x hxmem
      have hxne : s._id ≠ x._id := by
        intro hh
        exact hnotin (hh ▸ List.mem_map_of_mem (fun t => t._id) hxmem)
      rw [applyStatusUpdate_find_ne st s upd x._id hxne]
      exact hstored x (List.mem_cons_of_mem s hxmem)
    · exact (List.nodup_cons.mp hnd).2

theorem RInv_deleteManyLoop :
    ∀ (items : List GameSessionDTO) (st : RedisState), RInv st →
      (∀ x ∈ items, mapFind x._id st.store = some x) →
      (items.map (fun s => s._id)).Nodup →
      RInv (deleteManyLoop st items) := by
  intro items
  induction items with
  | nil => intro st h _ _; exact h
  | cons s rest ih =>
    intro st h hstored hnd
    have hs := hstored s (List.mem_cons_self s rest)
    have hnotin : s._id ∉ rest.map (fun t => t._id) := (List.nodup_cons.mp hnd).1
    show RInv (deleteManyLoop (delSessionKey (deindexSession st s) s._id) rest)
    apply ih
    · exact RInv_deleteStep st s h hs
    · intro x hxmem
      have hxne : s._id ≠ x._id := by
        intro hh
        exact hnotin (hh ▸ List.mem_map_of_mem (fun t => t._id) hxmem)
      rw [deleteStep_find_ne st s x._id hxne]
      exact hstored x (List.mem_cons_of_mem s hxmem)
    · exact (List.nodup_cons.mp hnd).2

/-- Reading a duplicate-free list of candidate ids out of the store yields
stored sessions with duplicate-free ids. -/
theorem filterMap_read_props (st : RedisState) (h : RInv st) :
    ∀ (ids : List String), ids.Nodup →
      (∀ x ∈ ids.filterMap (readSession st), mapFind x._id st.store = some x) ∧
      ((ids.filterMap (readSession st)).map (fun s => s._id)).Nodup := by
  intro ids
  induction ids with
  | nil => intro _; simp
  | cons i rest ih =>
    intro hnd
    obtain ⟨hni, hndr⟩ := List.nodup_cons.mp hnd
    obtain ⟨ih1, ih2⟩ := ih hndr
    have hsub : ∀ y ∈ rest.filterMap (readSession st), y._id ∈ rest := by
      intro y hy
      obtain ⟨j, hj, hread⟩ := List.mem_filterMap.mp hy
      have : y._id = j := h.keyOk j y hread
      exact this ▸ hj
    cases hr : readSession st i with
    | none =>
      rw [List.filterMap_cons_none hr]
      exact ⟨ih1, ih2⟩
    | some x =>
      have hxid : x._id = i := h.keyOk i x hr
      rw [List.filterMap_cons_some hr]
      constructor
      · intro y hy
        rcases List.mem_cons.mp hy with rfl | hy'
        · rw [hxid]
          exact hr
        · exact ih1 y hy'
      · rw [List.map_cons, List.nodup_cons]
        refine ⟨?_, ih2⟩
        intro hmem
        rcases List.mem_map.mp hmem with ⟨z, hz, hzid⟩
        have : z._id ∈ rest := hsub z hz
        rw [hzid, hxid] at this
        exact hni this

/-- Every find result is a currently stored session and the results carry
duplicate-free ids. -/
theorem findIds_nodup (st : RedisState) (f : FindFilter) (h : RInv st) :
    (findIds st f).Nodup := by
  rw [findIds]
  cases f.betAmount with
  | some b => exact h.betNodup b
  | none =>
    cases f.betAmountIn with
    | some bs =>
      by_cases hbs : bs.isEmpty <;> simp [hbs, h.allNodup, List.nodup_dedup]
    | none => exact h.allNodup

theorem statusFilter_sublist (sts? : Option (List SessionStatus))
    (sessions : List GameSessionDTO) :
    (statusFilter sts? sessions).Sublist sessions := by
  cases sts? with
  | none => exact List.Sublist.refl sessions
  | some sts =>
    show (if sts.isEmpty then sessions else _).Sublist sessions
    by_cases hse : sts.isEmpty
    · rw [if_pos hse]
    · rw [if_neg hse]
      exact List.filter_sublist sessions

theorem repoFind_stored (st : RedisState) (f : FindFilter) (h : RInv st) :
    (∀ x ∈ repoFind st f, mapFind x._id st.store = some x) ∧
    ((repoFind st f).map (fun s => s._id)).Nodup := by
  obtain ⟨hstored, hnd⟩ :=
    filterMap_read_props st h (findIds st f) (findIds_nodup st f h)
  have hsub := statusFilter_sublist f.statusIn ((findIds st f).filterMap (readSession st))
  have hperm : (repoFind st f).Perm
      (statusFilter f.statusIn ((findIds st f).filterMap (readSession st))) :=
    List.mergeSort_perm _ _
  constructor
  · intro x hx
    exact hstored x (hsub.subset (hperm.mem_iff.mp hx))
  · exact ((hperm.map (fun s => s._id)).nodup_iff).mpr
      (hnd.sublist (hsub.map (fun s => s._id)))

theorem repoFindOne_stored (st : RedisState) (c : Option Nat) (b : Option ℚ)
    (u : Option String) (sts : Option (List SessionStatus)) (h : RInv st)
    (target : GameSessionDTO) (htgt : repoFindOne st c b u sts = some target) :
    mapFind target._id st.store = some target := by
  have hmem : target ∈ repoFind st
      { betAmountIn := none, betAmount := b, statusIn := sts } :=
    List.mem_of_find?_eq_some htgt
  exact (repoFind_stored st _ h).1 target hmem

theorem RInv_applyOp (st : RedisState) (op : RepoOp) (h : RInv st)
    (hsafe : match op with
      | RepoOp.create id _ _ _ _ _ => mapFind id st.store = none
      | _ => True) :
    RInv (applyOp st op) := by
  cases op with
  | create id userId card bet sst createdAt =>
    exact RInv_create st id userId card bet sst createdAt h hsafe
  | updateOne c b u =>
    show RInv (updateOneOp st c b u)
    rw [updateOneOp]
    cases htgt : repoFindOne st c b none none with
    | none => exact h
    | some target =>
      exact RInv_statusUpdate st target u h (repoFindOne_stored st c b none none h target htgt)
  | updateMany b sf u =>
    show RInv (updateManyOp st b sf u)
    rw [updateManyOp]
    obtain ⟨hstored, hnd⟩ := repoFind_stored st
      { betAmountIn := none, betAmount := b, statusIn := sf.map (fun x => [x]) } h
    exact RInv_updateManyLoop u _ st h hstored hnd
  | deleteById id =>
    show RInv (deleteByIdOp st id)
    rw [deleteByIdOp]
    cases hr : readSession st id with
    | none => exact h
    | some s =>
      have hsid : s._id = id := h.keyOk id s hr
      have hs : mapFind s._id st.store = some s := by rw [hsid]; exact hr
      rw [← hsid]
      exact RInv_deleteStep st s h hs
  | deleteMany b =>
    show RInv (deleteManyOp st b)
    rw [deleteManyOp]
    obtain ⟨hstored, hnd⟩ := repoFind_stored st
      { betAmountIn := none, betAmount := b, statusIn := none } h
    exact RInv_deleteManyLoop _ st h hstored hnd

/-! ### Claim C10 -/

/-- C10: after any sequence of repository operations with fresh create ids,
the index-consistency invariant holds: every stored session id is a member
of sessions:all, of the bet index set of its betAmount and of the status
index set of its current status, and an id that is not stored (in
particular any deleted session id) is a member of no index set. -/
theorem c10_session_index_consistency (st : RedisState) (ops : List RepoOp)
    (h : RInv st) (hsafe : OpsSafe st ops) :
    RInv (runOps st ops) ∧
    (∀ id s, mapFind id (runOps st ops).store = some s →
      id ∈ (runOps st ops).allSet ∧
      id ∈ (runOps st ops).betSets s.betAmount ∧
      id ∈ (runOps st ops).statusSets s.status) ∧
    (∀ id, mapFind id (runOps st ops).store = none →
      id ∉ (runOps st ops).allSet ∧
      (∀ b, id ∉ (runOps st ops).betSets b) ∧
      (∀ c, id ∉ (runOps st ops).statusSets c)) := by
  have hinv : RInv (runOps st ops) := by
    induction ops generalizing st with
    | nil => exact h
    | cons op rest ih =>
      show RInv (runOps (applyOp st op) rest)
      exact ih (applyOp st op) (RInv_applyOp st op h hsafe.1) hsafe.2
  refine ⟨hinv, ?_, ?_⟩
  · intro id s hs
    exact ⟨hinv.inAll id s hs, hinv.inBet id s hs, hinv.inStatus id s hs⟩
  · intro id hnone
    refine ⟨?_, ?_, ?_⟩
    · intro hmem
      exact (hinv.allStored id hmem) hnone
    · intro b hmem
      exact (hinv.betStored b id hmem) hnone
    · intro c hmem
      exact (hinv.statusStored c id hmem) hnone

theorem RInv_emptyRedis : RInv emptyRedis := by
  constructor <;> simp [emptyRedis, mapFind]

/-- C10 witness: a create, a status update and a tier purge against the
empty keyspace keep the indexes consistent. -/
theorem c10_session_index_consistency_witness :
    RInv (runOps emptyRedis
      [RepoOp.create "a" "u1" 7 10 none "t1",
        RepoOp.updateOne (some 7) (some 10) (some SessionStatus.playing),
        RepoOp.deleteMany (some 10)]) ∧
    (∀ id s, mapFind id (runOps emptyRedis
        [RepoOp.create "a" "u1" 7 10 none "t1",
          RepoOp.updateOne (some 7) (some 10) (some SessionStatus.playing),
          RepoOp.deleteMany (some 10)]).store = some s →
      id ∈ (runOps emptyRedis
        [RepoOp.create "a" "u1" 7 10 none "t1",
          RepoOp.updateOne (some 7) (some 10) (some SessionStatus.playing),
          RepoOp.deleteMany (some 10)]).allSet ∧
      id ∈ (runOps emptyRedis
        [RepoOp.create "a" "u1" 7 10 none "t1",
          RepoOp.updateOne (some 7) (some 10) (some SessionStatus.playing),
          RepoOp.deleteMany (some 10)]).betSets s.betAmount ∧
      id ∈ (runOps emptyRedis
        [RepoOp.create "a" "u1" 7 10 none "t1",
          RepoOp.updateOne (some 7) (some 10) (some SessionStatus.playing),
          RepoOp.deleteMany (some 10)]).statusSets s.status) ∧
    (∀ id, mapFind id (runOps emptyRedis
        [RepoOp.create "a" "u1" 7 10 none "t1",
          RepoOp.updateOne (some 7) (some 10) (some SessionStatus.playing),
          RepoOp.deleteMany (some 10)]).store = none →
      id ∉ (runOps emptyRedis
        [RepoOp.create "a" "u1" 7 10 none "t1",
          RepoOp.updateOne (some 7) (some 10) (some SessionStatus.playing),
          RepoOp.deleteMany (some 10)]).allSet ∧
      (∀ b, id ∉ (runOps emptyRedis
        [RepoOp.create "a" "u1" 7 10 none "t1",
          RepoOp.updateOne (some 7) (some 10) (some SessionStatus.playing),
          RepoOp.deleteMany (some 10)]).betSets b) ∧
      (∀ c, id ∉ (runOps emptyRedis
        [RepoOp.create "a" "u1" 7 10 none "t1",
          RepoOp.updateOne (some 7) (some 10) (some SessionStatus.playing),
          RepoOp.deleteMany (some 10)]).statusSets c)) :=
  c10_session_index_consistency emptyRedis
    [RepoOp.create "a" "u1" 7 10 none "t1",
      RepoOp.updateOne (some 7) (some 10) (some SessionStatus.playing),
      RepoOp.deleteMany (some 10)]
    RInv_emptyRedis
    ⟨rfl, trivial, trivial, trivial⟩


end FetaBingo
